import Mathlib

/-!
Verification of the sequence-to-sequence encoder-decoder model defined in
`src/models/EncoderDecoder.py`.

Tensors are shallowly embedded as nested lists of rationals (batch-first
layouts, exactly as the source manipulates them).  Framework primitives
(`nn.GRU`/`nn.LSTM` cells, normalization modules, `nn.MultiheadAttention`,
`nn.Dropout`) are modelled by parameter-supplied functions carrying the
framework's documented shape contracts; the repository's own code
(constructors, `forward`, `init_hidden`, `__apply_normalization`,
`__apply_dropout`, the layer-stacking loops) is translated line by line.
Mutable module attributes (`self.hidden`, `self.cell_state`, `self.outputs`,
attention keys/values) become explicit state threaded through the functions.
Randomness used by dropout is an explicit Bernoulli stream argument.
-/

namespace EncDec

/-- A vector of rationals: the innermost (feature/hidden) axis of a tensor. -/
abbrev Vec := List ℚ

/-- A matrix: one batch element's (time, feature) block, or a (batch, hidden) slice. -/
abbrev Mat := List Vec

/-- A rank-3 tensor in nested-list form. -/
abbrev Tensor3 := List Mat

/-- `HasShape3 t a b c` : `t` is a rectangular rank-3 tensor of shape `(a, b, c)`. -/
def HasShape3 (t : Tensor3) (a b c : Nat) : Prop :=
  t.length = a ∧ ∀ m ∈ t, m.length = b ∧ ∀ v ∈ m, v.length = c

instance (t : Tensor3) (a b c : Nat) : Decidable (HasShape3 t a b c) := by
  unfold HasShape3
  exact inferInstance

/-- Element lookup `t[i][j][k]` with default `0` (torch tensors are rectangular,
so in-range lookups never hit the default). -/
def idx3 (t : Tensor3) (i j k : Nat) : ℚ :=
  ((t.getD i []).getD j []).getD k 0

/-- All-zero vector, modelling `torch.zeros(n)`. -/
def zerosVec (n : Nat) : Vec := List.replicate n 0

/-- All-zero rank-3 tensor, modelling `torch.zeros(a, b, c)`. -/
def zeros3 (a b c : Nat) : Tensor3 :=
  List.replicate a (List.replicate b (zerosVec c))

/-- The runtime shape of a tensor (`tensor.shape`), read off the nesting. -/
def shapeOf3 (t : Tensor3) : Nat × Nat × Nat :=
  (t.length, (t.getD 0 []).length, ((t.getD 0 []).getD 0 []).length)

/-- Builds the rectangular tensor of shape `(a, b, c)` whose `(i,j,k)` entry is
`f i j k`. -/
def build3 (a b c : Nat) (f : Nat → Nat → Nat → ℚ) : Tensor3 :=
  (List.range a).map fun i => (List.range b).map fun j => (List.range c).map fun k => f i j k

/-- `t.permute(0, 2, 1)`: swaps the last two axes. -/
def permute021 (t : Tensor3) : Tensor3 :=
  build3 (shapeOf3 t).1 (shapeOf3 t).2.2 (shapeOf3 t).2.1 fun i j k => idx3 t i k j

/-- `t.permute(1, 0, 2)`: swaps the first two axes. -/
def permute102 (t : Tensor3) : Tensor3 :=
  build3 (shapeOf3 t).2.1 (shapeOf3 t).1 (shapeOf3 t).2.2 fun i j k => idx3 t j i k

/-- `t.permute(1, 2, 0)`: axis `d` of the result is axis `(d+1) mod 3` of `t`. -/
def permute120 (t : Tensor3) : Tensor3 :=
  build3 (shapeOf3 t).2.1 (shapeOf3 t).2.2 (shapeOf3 t).1 fun i j k => idx3 t k i j

/-- `t.permute(2, 0, 1)`: axis `d` of the result is axis `(d+2) mod 3` of `t`. -/
def permute201 (t : Tensor3) : Tensor3 :=
  build3 (shapeOf3 t).2.2 (shapeOf3 t).1 (shapeOf3 t).2.1 fun i j k => idx3 t j k i

/-- `torch.cat([s, t], axis=-1)`: concatenation along the feature axis. -/
def cat3 (s t : Tensor3) : Tensor3 :=
  (s.zip t).map fun p => (p.1.zip p.2).map fun q => q.1 ++ q.2

/-- The kind of recurrent cell the source dispatches on
(`type(rnn) == nn.LSTM`). -/
inductive RnnType where
  | GRU
  | LSTM
deriving DecidableEq, Repr

/-- One framework recurrent cell (`nn.GRU`/`nn.LSTM` instantiated with
`num_layers=1, batch_first=True`).  The per-timestep transition functions
abstract the gate arithmetic together with the cell's learned weights. -/
structure RnnCell where
  ty : RnnType
  hiddenDim : Nat
  /-- GRU transition: input vector and hidden vector to new hidden vector. -/
  stepG : Vec → Vec → Vec
  /-- LSTM transition: input, hidden, cell to new (hidden, cell). -/
  stepL : Vec → Vec → Vec → Vec × Vec

/-- Framework contract of a recurrent cell with hidden size `hd`: every
transition produces vectors of length `hd`. -/
def CellWF (c : RnnCell) : Prop :=
  (∀ x h, (c.stepG x h).length = c.hiddenDim) ∧
  (∀ x h cc, (c.stepL x h cc).1.length = c.hiddenDim ∧
    (c.stepL x h cc).2.length = c.hiddenDim)

/-- Runs a GRU cell over one batch element's timestep list from hidden `h`,
returning the per-timestep hidden outputs and the final hidden vector. -/
def runG (c : RnnCell) : List Vec → Vec → List Vec × Vec
  | [], h => ([], h)
  | x :: xs, h =>
      let h2 := c.stepG x h
      let r := runG c xs h2
      (h2 :: r.1, r.2)

/-- Runs an LSTM cell over one batch element's timestep list from `(h, cc)`,
returning the per-timestep hidden outputs and the final `(hidden, cell)`. -/
def runL (c : RnnCell) : List Vec → Vec → Vec → List Vec × Vec × Vec
  | [], h, cc => ([], h, cc)
  | x :: xs, h, cc =>
      let hc := c.stepL x h cc
      let r := runL c xs hc.1 hc.2
      (hc.1 :: r.1, r.2)

/-- Initial per-batch-element state vectors from an optional `(1, N, H)` state
tensor; `none` models the framework's implicit zero initialization. -/
def initState (hd : Nat) (h0 : Option Tensor3) (n : Nat) : Vec :=
  match h0 with
  | none => zerosVec hd
  | some h => (h.getD 0 []).getD n []

/-- `nn.GRU` forward (`batch_first=True`): input `(N, L, F)` and optional
initial hidden `(1, N, H)` to output `(N, L, H)` and final hidden `(1, N, H)`. -/
def gruForward (c : RnnCell) (X : Tensor3) (h0 : Option Tensor3) : Tensor3 × Tensor3 :=
  let rs := (List.range X.length).map fun n => runG c (X.getD n []) (initState c.hiddenDim h0 n)
  (rs.map (·.1), [rs.map (·.2)])

/-- `nn.LSTM` forward (`batch_first=True`): input `(N, L, F)` and optional
initial `(h, c)` (each `(1, N, H)`) to output `(N, L, H)` and final
`(h, c)`. -/
def lstmForward (c : RnnCell) (X : Tensor3) (hc0 : Option (Tensor3 × Tensor3)) :
    Tensor3 × Tensor3 × Tensor3 :=
  let rs := (List.range X.length).map fun n =>
    runL c (X.getD n []) (initState c.hiddenDim (hc0.map (·.1)) n)
      (initState c.hiddenDim (hc0.map (·.2)) n)
  (rs.map (·.1), [rs.map (·.2.1)], [rs.map (·.2.2)])

/-- The normalization option string of the constructors
(`"BatchNormalization"` / `"LayerNormalization"`). -/
inductive NormKind where
  | Batch
  | Layer
deriving DecidableEq, Repr

/-- One instantiated normalization module (`nn.BatchNorm1d(hidden_dim)` or
`nn.LayerNorm(hidden_dim)`): its kind (dispatched on by
`__apply_normalization`) and its learned transformation. -/
structure NormLayer where
  nty : NormKind
  f : Tensor3 → Tensor3

/-- Framework contract: a normalization module preserves the shape of its
input tensor. -/
def NormWF (n : NormLayer) : Prop :=
  ∀ t a b c, HasShape3 t a b c → HasShape3 (n.f t) a b c

/-- A fully-connected layer `nn.Linear(inF, outF)` with its learned weight
matrix (`outF` rows of length `inF`) and bias. -/
structure LinearLayer where
  weight : List Vec
  bias : Vec

/-- Framework contract of `nn.Linear(inF, outF)`: the weight has `outF` rows
of length `inF` and the bias has length `outF`. -/
def LinWF (l : LinearLayer) (inF outF : Nat) : Prop :=
  l.weight.length = outF ∧ (∀ w ∈ l.weight, w.length = inF) ∧ l.bias.length = outF

/-- Dot product (`zipWith` keeps it total; in-contract calls have matching
lengths). -/
def dotQ (a b : Vec) : ℚ := (List.zipWith (· * ·) a b).sum

/-- Applies a linear layer to one vector along the last axis. -/
def applyLinVec (l : LinearLayer) (v : Vec) : Vec :=
  (l.weight.zip l.bias).map fun wb => dotQ wb.1 v + wb.2

/-- Applies `nn.Linear` to a rank-3 tensor (acts on the last axis). -/
def applyLinear (l : LinearLayer) (t : Tensor3) : Tensor3 :=
  t.map fun m => m.map (applyLinVec l)

/-- An instantiated `nn.MultiheadAttention(embed_dim, num_heads,
batch_first=True)`: called as `attn(query, keys, values)`, returning the
attention output (the source discards the returned weights). -/
structure AttnLayer where
  heads : Nat
  f : Tensor3 → Tensor3 → Tensor3 → Tensor3

/-- Framework contract of batch-first multi-head attention: query `(N, L, E)`
with keys/values `(N, S, E)` yields output `(N, L, E)`. -/
def AttnWF (a : AttnLayer) : Prop :=
  ∀ q k v n l s e, HasShape3 q n l e → HasShape3 k n s e → HasShape3 v n s e →
    HasShape3 (a.f q k v) n l e

/-- A Bernoulli mask stream for one `nn.Dropout` call site: `m i j k` decides
whether position `(i,j,k)` is zeroed. -/
abbrev Mask := Nat → Nat → Nat → Bool

/-- The model's randomness source: `Ω layer kind` is the fresh mask drawn by
the dropout call on layer index `layer` applied to tensor `kind`
(0 = layer output, 1 = hidden state, 2 = cell state). -/
abbrev RandStream := Nat → Nat → Mask

/-- `nn.Dropout(p)` in training mode under mask `m`: each element is zeroed
where the mask fires, otherwise rescaled by `1 / (1 - p)`. -/
def dropoutT (p : ℚ) (m : Mask) (t : Tensor3) : Tensor3 :=
  (List.range t.length).map fun i =>
    let row := t.getD i []
    (List.range row.length).map fun j =>
      let v := row.getD j []
      (List.range v.length).map fun k =>
        if m i j k then 0 else v.getD k 0 / (1 - p)

/-- The mutable recurrent state a module carries across its layer pipeline
(`self.hidden`, `self.cell_state`); `none` is Python's `None`. -/
structure RecState where
  hidden : Option Tensor3
  cell : Option Tensor3

/-- Applies an optional normalization module.  In the source every call site
has already established the module is not `None`; the identity branch keeps
the model total. -/
def applyNormOpt (n : Option NormLayer) (t : Tensor3) : Tensor3 :=
  match n with
  | some l => l.f t
  | none => t

/-- `type(self.out_normalization) == nn.BatchNorm1d`. -/
def isBatch (n : Option NormLayer) : Bool :=
  match n with
  | some l => match l.nty with
    | NormKind.Batch => true
    | NormKind.Layer => false
  | none => false

/-- `__apply_normalization` (identical bodies in `Encoder` and `Decoder`):
in the batch-normalization case permutes the layer output to `(N, H, L)` and
the hidden/cell states to `(N, H, 1)`, applies `out_normalization` to the
output, `hidden_normalization` to the hidden state, and — when a cell state
and a cell module exist — `out_normalization` (sic, the source's own choice)
to the cell state, then permutes everything back.  Conditionals on
`self.hidden is not None` / `self.cell_state is not None` become
`Option.map`. -/
def applyNormalizationCore (outN hidN celN : Option NormLayer)
    (tensor : Tensor3) (st : RecState) : Tensor3 × RecState :=
  let tensor := if isBatch outN then permute021 tensor else tensor
  let hid := if isBatch outN then st.hidden.map permute120 else st.hidden
  let cel := if isBatch outN then st.cell.map permute120 else st.cell
  let output := applyNormOpt outN tensor
  let hid := hid.map (applyNormOpt hidN)
  let cel := if celN.isSome then cel.map (applyNormOpt outN) else cel
  let output := if isBatch outN then permute021 output else output
  let hid := if isBatch outN then hid.map permute201 else hid
  let cel := if isBatch outN then cel.map permute201 else cel
  (output, ⟨hid, cel⟩)

/-- `__apply_dropout` at one layer index: the same dropout module is invoked
on the layer output, the hidden state and the cell state (three independent
draws from the stream; `Ωi k` is the draw for tensor kind `k`). -/
def applyDropoutCore (p : ℚ) (Ωi : Nat → Mask) (tensor : Tensor3) (st : RecState) :
    Tensor3 × RecState :=
  (dropoutT p (Ωi 0) tensor,
   ⟨st.hidden.map (dropoutT p (Ωi 1)), st.cell.map (dropoutT p (Ωi 2))⟩)

/-- The per-layer epilogue shared by `Encoder.forward` and `Decoder.forward`:
normalization when configured, then dropout when dropout modules exist and
the module is in training mode. -/
def postProcess (outN hidN celN : Option NormLayer) (dropouts : List ℚ)
    (training : Bool) (Ω : RandStream) (i : Nat) (st : Tensor3 × RecState) :
    Tensor3 × RecState :=
  let st := if outN.isSome then applyNormalizationCore outN hidN celN st.1 st.2 else st
  if !dropouts.isEmpty && training then
    applyDropoutCore (dropouts.getD i 0) (Ω i) st.1 st.2
  else st

/-- One iteration of the stacked-layer loop (`for i, rnn in
enumerate(self.rnns, start=1)`): runs the cell seeded with the current
hidden/cell state, then the epilogue.  The source passes `(self.hidden,
self.cell_state)` to an LSTM cell; at that point both are set, so `.getD []`
is never the acting branch. -/
def runLayer (outN hidN celN : Option NormLayer) (dropouts : List ℚ)
    (training : Bool) (Ω : RandStream) (i : Nat) (cell : RnnCell)
    (st : Tensor3 × RecState) : Tensor3 × RecState :=
  let st :=
    match cell.ty with
    | RnnType.LSTM =>
        let r := lstmForward cell st.1 (some (st.2.hidden.getD [], st.2.cell.getD []))
        (r.1, (⟨some r.2.1, some r.2.2⟩ : RecState))
    | RnnType.GRU =>
        let r := gruForward cell st.1 st.2.hidden
        (r.1, (⟨some r.2, st.2.cell⟩ : RecState))
  postProcess outN hidN celN dropouts training Ω i st

/-- The stacked-layer loop, indexed from `start=1`. -/
def runLayers (outN hidN celN : Option NormLayer) (dropouts : List ℚ)
    (training : Bool) (Ω : RandStream) :
    Nat → List RnnCell → Tensor3 × RecState → Tensor3 × RecState
  | _, [], st => st
  | i, c :: cs, st =>
      runLayers outN hidN celN dropouts training Ω (i + 1) cs
        (runLayer outN hidN celN dropouts training Ω i c st)

/-- The `Encoder` module: configuration, learned sub-modules and mutable
state, mirroring `Encoder.__init__`'s attributes. -/
structure Encoder where
  n_features : Nat
  hidden_dim : Nat
  hidden : Option Tensor3
  cell_state : Option Tensor3
  dropout : ℚ
  basic_rnn : RnnCell
  rnns : List RnnCell
  dropouts : List ℚ
  out_normalization : Option NormLayer
  hidden_normalization : Option NormLayer
  cell_normalization : Option NormLayer
  training : Bool

/-- `Encoder.forward`: first-layer cell (LSTM sets hidden and cell state, GRU
sets only hidden), epilogue at index 0, then the stacked layers from index 1.
Returns the updated module, the output sequence and `self.cell_state`. -/
def Encoder.forward (e : Encoder) (Ω : RandStream) (X : Tensor3) :
    Encoder × Tensor3 × Option Tensor3 :=
  let st0 : Tensor3 × RecState :=
    match e.basic_rnn.ty with
    | RnnType.LSTM =>
        let r := lstmForward e.basic_rnn X none
        (r.1, (⟨some r.2.1, some r.2.2⟩ : RecState))
    | RnnType.GRU =>
        let r := gruForward e.basic_rnn X none
        (r.1, (⟨some r.2, e.cell_state⟩ : RecState))
  let st1 := postProcess e.out_normalization e.hidden_normalization e.cell_normalization
    e.dropouts e.training Ω 0 st0
  let st2 := runLayers e.out_normalization e.hidden_normalization e.cell_normalization
    e.dropouts e.training Ω 1 e.rnns st1
  ({ e with hidden := st2.2.hidden, cell_state := st2.2.cell }, st2.1, st2.2.cell)

/-- The `Decoder` module, mirroring `Decoder.__init__`'s attributes. -/
structure Decoder where
  n_features : Nat
  hidden_dim : Nat
  hidden : Option Tensor3
  cell_state : Option Tensor3
  dropout : ℚ
  basic_rnn : RnnCell
  rnns : List RnnCell
  dropouts : List ℚ
  out_normalization : Option NormLayer
  hidden_normalization : Option NormLayer
  cell_normalization : Option NormLayer
  attn_keys : Option Tensor3
  attn_values : Option Tensor3
  attn : Option AttnLayer
  linear_keys : Option LinearLayer
  linear_values : Option LinearLayer
  regression : LinearLayer
  training : Bool

/-- Applies an optional linear layer; constructors set the layer whenever the
call site is reachable, so the identity branch only keeps the model total. -/
def applyLinOpt (l : Option LinearLayer) (t : Tensor3) : Tensor3 :=
  match l with
  | some ll => applyLinear ll t
  | none => t

/-- `hidden_seq[:, -1:]` on one batch element: the slice holding the last
timestep (empty when the sequence is empty). -/
def lastSlice (m : Mat) : Mat := m.drop (m.length - 1)

/-- `Decoder.init_hidden`: when attention is enabled, precompute key/value
projections of the full encoder hidden sequence; seed `self.hidden` from the
last encoder timestep reshaped to `(1, N, H)`; forward a provided cell state
or allocate zeros of `self.hidden.shape`. -/
def Decoder.init_hidden (d : Decoder) (hidden_seq : Tensor3)
    (cell_state : Option Tensor3 := none) : Decoder :=
  let hid := permute102 (hidden_seq.map lastSlice)
  let cel :=
    match cell_state with
    | none => zeros3 (shapeOf3 hid).1 (shapeOf3 hid).2.1 (shapeOf3 hid).2.2
    | some cs => cs
  { d with
    attn_keys :=
      if d.attn.isSome then some (applyLinOpt d.linear_keys hidden_seq) else d.attn_keys,
    attn_values :=
      if d.attn.isSome then some (applyLinOpt d.linear_values hidden_seq) else d.attn_values,
    hidden := some hid, cell_state := some cel }

/-- `Decoder.forward`: first-layer cell seeded from `self.hidden` /
`self.cell_state`, the shared epilogue and stacked layers, then optionally
multi-head attention (query = recurrent output, keys/values precomputed by
`init_hidden`) concatenated with the recurrent output, and finally the
regression layer. -/
def Decoder.forward (d : Decoder) (Ω : RandStream) (X : Tensor3) :
    Decoder × Tensor3 :=
  let st0 : Tensor3 × RecState :=
    match d.basic_rnn.ty with
    | RnnType.LSTM =>
        let r := lstmForward d.basic_rnn X (some (d.hidden.getD [], d.cell_state.getD []))
        (r.1, (⟨some r.2.1, some r.2.2⟩ : RecState))
    | RnnType.GRU =>
        let r := gruForward d.basic_rnn X d.hidden
        (r.1, (⟨some r.2, d.cell_state⟩ : RecState))
  let st1 := postProcess d.out_normalization d.hidden_normalization d.cell_normalization
    d.dropouts d.training Ω 0 st0
  let st2 := runLayers d.out_normalization d.hidden_normalization d.cell_normalization
    d.dropouts d.training Ω 1 d.rnns st1
  let out :=
    match d.attn with
    | some a => cat3 (a.f st2.1 (d.attn_keys.getD []) (d.attn_values.getD [])) st2.1
    | none => st2.1
  ({ d with hidden := st2.2.hidden, cell_state := st2.2.cell },
   applyLinear d.regression out)

/-- The top-level `EncoderDecoder` module. -/
structure EncoderDecoder where
  encoder : Encoder
  decoder : Decoder
  input_len : Nat
  target_len : Nat
  teacher_forcing_prob : ℚ
  outputs : Option Tensor3

/-- `EncoderDecoder.init_outputs`: allocates the all-zero accumulation buffer
of shape `(batch, target_len, n_features)`. -/
def EncoderDecoder.init_outputs (m : EncoderDecoder) (batch_size : Nat) : EncoderDecoder :=
  { m with outputs := some (zeros3 batch_size m.target_len m.encoder.n_features) }

/-- `EncoderDecoder.store_output`: `self.outputs[:, i:i+1, :] = out` (dead in
the active `forward` path). -/
def EncoderDecoder.store_output (m : EncoderDecoder) (i : Nat) (out : Tensor3) :
    EncoderDecoder :=
  { m with outputs := m.outputs.map fun buf =>
      (List.range buf.length).map fun n =>
        (buf.getD n []).set i ((out.getD n []).getD 0 []) }

/-- `EncoderDecoder.forward`: splits `X` into source and target windows at
`input_len`, allocates the output buffer, encodes the source window, seeds
the decoder, and feeds the source window once through the decoder (the
autoregressive / teacher-forcing rollout is commented out in the source),
returning the decoder output directly.  `Ωe` / `Ωd` are the encoder's and
decoder's dropout randomness. -/
def EncoderDecoder.forward (m : EncoderDecoder) (Ωe Ωd : RandStream) (X : Tensor3) :
    EncoderDecoder × Tensor3 :=
  let source_seq := X.map (List.take m.input_len)
  let _target_seq := X.map (List.drop m.input_len)
  let m1 := m.init_outputs X.length
  let er := m1.encoder.forward Ωe source_seq
  let d1 := m1.decoder.init_hidden er.2.1 er.2.2
  let dr := d1.forward Ωd source_seq
  ({ m1 with encoder := er.1, decoder := dr.1 }, dr.2)

/-- The source of freshly-initialized framework modules consumed by the
constructors (each Python constructor call draws new random parameters; the
first argument of each factory is the instantiation counter). -/
structure ParamSupply where
  cellFab : Nat → Nat → Nat → RnnCell
  normFab : Nat → Tensor3 → Tensor3
  linFab : Nat → Nat → Nat → LinearLayer
  attnFab : Nat → Nat → AttnLayer

/-- Shape contract of a normalization function. -/
def NormFunWF (f : Tensor3 → Tensor3) : Prop :=
  ∀ t a b c, HasShape3 t a b c → HasShape3 (f t) a b c

/-- The framework contracts of everything a supply hands out: cells called as
`rnn_layer(inF, hidF, ...)` have hidden size `hidF`, normalization preserves
shapes, `nn.Linear(a, b)` has a `(b, a)` weight and length-`b` bias, and
attention obeys the batch-first shape contract. -/
def SupplyWF (ps : ParamSupply) : Prop :=
  (∀ i a b, CellWF (ps.cellFab i a b) ∧ (ps.cellFab i a b).hiddenDim = b) ∧
  (∀ i, NormFunWF (ps.normFab i)) ∧
  (∀ i a b, LinWF (ps.linFab i a b) a b) ∧
  (∀ e h, AttnWF (ps.attnFab e h))

/-- `Encoder.__init__`: first-layer cell over `n_features`, `num_rnn_layers -
1` stacked cells over `hidden_dim` when stacking, dropout modules only when
both stacking and a positive rate are configured, and normalization modules
per the option — the cell-state module only for LSTM cells. -/
def mkEncoder (n_features hidden_dim : Nat) (ps : ParamSupply)
    (num_rnn_layers : Nat := 1) (dropout : ℚ := 0)
    (normalization : Option NormKind := none) : Encoder :=
  let basic := ps.cellFab 0 n_features hidden_dim
  let rnns :=
    if 1 < num_rnn_layers then
      (List.range (num_rnn_layers - 1)).map fun i => ps.cellFab (i + 1) hidden_dim hidden_dim
    else []
  let dropouts :=
    if 1 < num_rnn_layers ∧ 0 < dropout then List.replicate num_rnn_layers dropout else []
  let norms : Option (NormLayer × NormLayer × Option NormLayer) :=
    match normalization with
    | some k =>
        some (⟨k, ps.normFab 0⟩, ⟨k, ps.normFab 1⟩,
          if basic.ty = RnnType.LSTM then some ⟨k, ps.normFab 2⟩ else none)
    | none => none
  { n_features := n_features, hidden_dim := hidden_dim, hidden := none,
    cell_state := none, dropout := dropout, basic_rnn := basic, rnns := rnns,
    dropouts := dropouts,
    out_normalization := norms.map (·.1),
    hidden_normalization := norms.map (·.2.1),
    cell_normalization := norms.bind (·.2.2),
    training := true }

/-- `Decoder.__init__`: as the encoder, plus — when `narrow_attn_heads > 0` —
the attention module and its key/value projections, and the regression layer
whose input width doubles when attention is enabled. -/
def mkDecoder (n_features hidden_dim : Nat) (ps : ParamSupply)
    (num_rnn_layers : Nat := 1) (dropout : ℚ := 0)
    (normalization : Option NormKind := none) (narrow_attn_heads : Nat := 0) : Decoder :=
  let basic := ps.cellFab 0 n_features hidden_dim
  let rnns :=
    if 1 < num_rnn_layers then
      (List.range (num_rnn_layers - 1)).map fun i => ps.cellFab (i + 1) hidden_dim hidden_dim
    else []
  let dropouts :=
    if 1 < num_rnn_layers ∧ 0 < dropout then List.replicate num_rnn_layers dropout else []
  let norms : Option (NormLayer × NormLayer × Option NormLayer) :=
    match normalization with
    | some k =>
        some (⟨k, ps.normFab 0⟩, ⟨k, ps.normFab 1⟩,
          if basic.ty = RnnType.LSTM then some ⟨k, ps.normFab 2⟩ else none)
    | none => none
  { n_features := n_features, hidden_dim := hidden_dim, hidden := none,
    cell_state := none, dropout := dropout, basic_rnn := basic, rnns := rnns,
    dropouts := dropouts,
    out_normalization := norms.map (·.1),
    hidden_normalization := norms.map (·.2.1),
    cell_normalization := norms.bind (·.2.2),
    attn_keys := none, attn_values := none,
    attn := if 0 < narrow_attn_heads then some (ps.attnFab hidden_dim narrow_attn_heads) else none,
    linear_keys :=
      if 0 < narrow_attn_heads then some (ps.linFab 0 hidden_dim hidden_dim) else none,
    linear_values :=
      if 0 < narrow_attn_heads then some (ps.linFab 1 hidden_dim hidden_dim) else none,
    regression :=
      ps.linFab 2 (if 0 < narrow_attn_heads then hidden_dim * 2 else hidden_dim) n_features,
    training := true }

/-- `create_encoder_decoder_model`: the only explicit validation is the
divisibility assertion guarded by `narrow_attn_heads > 0`; then encoder,
decoder and the composite are built with `input_len = target_len = seq_len`.
`psE` / `psD` supply the two constructors' fresh parameters. -/
def create_encoder_decoder_model (n_features hidden_dim : Nat)
    (psE psD : ParamSupply) (rnn_layers seq_len : Nat) (teacher_forcing : ℚ)
    (dropout : ℚ := 0) (normalization : Option NormKind := none)
    (narrow_attn_heads : Nat := 0) : Except String EncoderDecoder :=
  if 0 < narrow_attn_heads ∧ ¬hidden_dim % narrow_attn_heads = 0 then
    Except.error
      "the number of narrow attention heads must be a multiple of the model hidden dimensions"
  else
    Except.ok
      { encoder := mkEncoder n_features hidden_dim psE rnn_layers dropout normalization,
        decoder :=
          mkDecoder n_features hidden_dim psD rnn_layers dropout normalization narrow_attn_heads,
        input_len := seq_len, target_len := seq_len,
        teacher_forcing_prob := teacher_forcing, outputs := none }

/-! ### Concrete instantiations used to evaluate the model on closed inputs -/

/-- A concrete recurrent cell of the given type and hidden size (transition
functions returning zeros of the right length). -/
def exCell (ty : RnnType) (hd : Nat) : RnnCell :=
  ⟨ty, hd, fun _ _ => zerosVec hd, fun _ _ _ => (zerosVec hd, zerosVec hd)⟩

/-- A concrete zero-initialized linear layer of the given dimensions. -/
def exLin (a b : Nat) : LinearLayer :=
  ⟨List.replicate b (zerosVec a), zerosVec b⟩

/-- A concrete parameter supply built from GRU cells. -/
def exSupplyG : ParamSupply :=
  ⟨fun _ _ b => exCell RnnType.GRU b, fun _ => id, fun _ a b => exLin a b,
   fun _ h => ⟨h, fun q _ _ => q⟩⟩

/-- A concrete parameter supply built from LSTM cells. -/
def exSupplyL : ParamSupply :=
  ⟨fun _ _ b => exCell RnnType.LSTM b, fun _ => id, fun _ a b => exLin a b,
   fun _ h => ⟨h, fun q _ _ => q⟩⟩

theorem exCell_wf (ty : RnnType) (hd : Nat) : CellWF (exCell ty hd) := by
  constructor
  · intro x h
    simp [exCell, zerosVec]
  · intro x h cc
    simp [exCell, zerosVec]

theorem exLin_wf (a b : Nat) : LinWF (exLin a b) a b := by
  refine ⟨by simp [exLin], ?_, by simp [exLin, zerosVec]⟩
  intro w hw
  simp [exLin] at hw
  simp [hw, zerosVec]

theorem exSupplyG_wf : SupplyWF exSupplyG := by
  refine ⟨fun i a b => ⟨exCell_wf _ _, rfl⟩, fun i t a b c h => h,
    fun i a b => exLin_wf a b, fun e h => ?_⟩
  intro q k v n l s e' hq hk hv
  exact hq

theorem exSupplyL_wf : SupplyWF exSupplyL := by
  refine ⟨fun i a b => ⟨exCell_wf _ _, rfl⟩, fun i t a b c h => h,
    fun i a b => exLin_wf a b, fun e h => ?_⟩
  intro q k v n l s e' hq hk hv
  exact hq

/-! ### C2: the attention-head divisibility check -/

/-- C2.  With `narrow_attn_heads > 0`, `create_encoder_decoder_model` fails at
construction with a configuration error exactly when `hidden_dim` is not
evenly divisible by `narrow_attn_heads`; with `narrow_attn_heads = 0` no check
is performed and construction succeeds for every `hidden_dim`. -/
theorem C2_attention_divisibility_check (n_features hidden_dim : Nat)
    (psE psD : ParamSupply) (rnn_layers seq_len : Nat) (tf dropout : ℚ)
    (norm : Option NormKind) (heads : Nat) :
    (0 < heads →
      ((∃ msg, create_encoder_decoder_model n_features hidden_dim psE psD rnn_layers
          seq_len tf dropout norm heads = Except.error msg) ↔
        ¬hidden_dim % heads = 0)) ∧
    (heads = 0 →
      ∃ m, create_encoder_decoder_model n_features hidden_dim psE psD rnn_layers
        seq_len tf dropout norm heads = Except.ok m) := by
  constructor
  · intro hpos
    unfold create_encoder_decoder_model
    constructor
    · intro hmsg
      obtain ⟨msg, hmsg⟩ := hmsg
      by_contra hdvd
      simp [hpos, hdvd] at hmsg
    · intro hdvd
      rw [if_pos ⟨hpos, hdvd⟩]
      exact ⟨_, rfl⟩
  · intro hz
    subst hz
    unfold create_encoder_decoder_model
    rw [if_neg (by simp)]
    exact ⟨_, rfl⟩

/-- Closed instance of C2: `hidden_dim = 10`, `heads = 3` raises; `heads = 0`
with the same `hidden_dim` constructs. -/
theorem C2_attention_divisibility_check_witness :
    (∃ msg, create_encoder_decoder_model 1 10 exSupplyG exSupplyG 1 2 0 0 none 3 =
      Except.error msg) ∧
    (∃ m, create_encoder_decoder_model 1 10 exSupplyG exSupplyG 1 2 0 0 none 0 =
      Except.ok m) := by
  constructor
  · exact ((C2_attention_divisibility_check 1 10 exSupplyG exSupplyG 1 2 0 0 none 3).1
      (by decide)).mpr (by decide)
  · exact (C2_attention_divisibility_check 1 10 exSupplyG exSupplyG 1 2 0 0 none 0).2 rfl

/-! ### C7: number of stacked recurrent sub-layers -/

theorem mkEncoder_rnns_length (n_features hidden_dim : Nat) (ps : ParamSupply)
    (layers : Nat) (p : ℚ) (norm : Option NormKind) :
    (mkEncoder n_features hidden_dim ps layers p norm).rnns.length = layers - 1 := by
  unfold mkEncoder
  by_cases h : 1 < layers
  · simp [h]
  · simp [h]
    omega

theorem mkDecoder_rnns_length (n_features hidden_dim : Nat) (ps : ParamSupply)
    (layers : Nat) (p : ℚ) (norm : Option NormKind) (heads : Nat) :
    (mkDecoder n_features hidden_dim ps layers p norm heads).rnns.length = layers - 1 := by
  unfold mkDecoder
  by_cases h : 1 < layers
  · simp [h]
  · simp [h]
    omega

/-- C7.  For every configuration, the encoder and the decoder hold
`num_rnn_layers - 1` stacked recurrent sub-layers in `self.rnns` beyond
`self.basic_rnn`; in particular `num_rnn_layers = 3` instantiates exactly 2
additional sub-layers in each. -/
theorem C7_stacked_layer_count (n_features hidden_dim : Nat) (ps : ParamSupply)
    (layers : Nat) (p : ℚ) (norm : Option NormKind) (heads : Nat) :
    (mkEncoder n_features hidden_dim ps layers p norm).rnns.length = layers - 1 ∧
    (mkDecoder n_features hidden_dim ps layers p norm heads).rnns.length = layers - 1 ∧
    (mkEncoder n_features hidden_dim ps 3 p norm).rnns.length = 2 ∧
    (mkDecoder n_features hidden_dim ps 3 p norm heads).rnns.length = 2 :=
  ⟨mkEncoder_rnns_length .., mkDecoder_rnns_length ..,
   mkEncoder_rnns_length .., mkDecoder_rnns_length ..⟩

/-! ### Dropout inertness: lemmas shared by the determinism claims -/

theorem runLayer_no_dropouts (outN hidN celN : Option NormLayer) (tr : Bool)
    (Ω Ω' : RandStream) (i i' : Nat) (c : RnnCell) (st : Tensor3 × RecState) :
    runLayer outN hidN celN [] tr Ω i c st = runLayer outN hidN celN [] tr Ω' i' c st := by
  simp [runLayer, postProcess]

theorem runLayers_no_dropouts (outN hidN celN : Option NormLayer) (tr : Bool)
    (Ω Ω' : RandStream) :
    ∀ (cs : List RnnCell) (i i' : Nat) (st : Tensor3 × RecState),
      runLayers outN hidN celN [] tr Ω i cs st = runLayers outN hidN celN [] tr Ω' i' cs st
  | [], _, _, _ => rfl
  | c :: cs, i, i', st => by
      rw [runLayers, runLayers, runLayer_no_dropouts outN hidN celN tr Ω Ω' i i' c st]
      exact runLayers_no_dropouts outN hidN celN tr Ω Ω' cs (i + 1) (i' + 1) _

/-- With no dropout modules the per-layer epilogue is just the optional
normalization. -/
theorem postProcess_nil (outN hidN celN : Option NormLayer) (tr : Bool)
    (Ω : RandStream) (i : Nat) (st : Tensor3 × RecState) :
    postProcess outN hidN celN [] tr Ω i st =
      if outN.isSome then applyNormalizationCore outN hidN celN st.1 st.2 else st := by
  simp [postProcess]

/-- With no dropout modules, `Encoder.forward` never consults the randomness
stream. -/
theorem enc_forward_rand_irrel (e : Encoder) (Ω Ω' : RandStream) (X : Tensor3)
    (h : e.dropouts = []) : e.forward Ω X = e.forward Ω' X := by
  unfold Encoder.forward
  rw [h]
  simp only [postProcess_nil,
    runLayers_no_dropouts e.out_normalization e.hidden_normalization
      e.cell_normalization e.training Ω Ω' e.rnns 1 1]

/-- With no dropout modules, `Decoder.forward` never consults the randomness
stream. -/
theorem dec_forward_rand_irrel (d : Decoder) (Ω Ω' : RandStream) (X : Tensor3)
    (h : d.dropouts = []) : d.forward Ω X = d.forward Ω' X := by
  unfold Decoder.forward
  rw [h]
  simp only [postProcess_nil,
    runLayers_no_dropouts d.out_normalization d.hidden_normalization
      d.cell_normalization d.training Ω Ω' d.rnns 1 1]

/-- `forward` never reads the stored `self.dropout` rate. -/
theorem Encoder.forward_dropout_field (e : Encoder) (p : ℚ) (Ω : RandStream) (X : Tensor3) :
    (({ e with dropout := p }).forward Ω X).2 = (e.forward Ω X).2 := rfl

/-- Neither `init_hidden` nor `forward` reads the decoder's stored
`self.dropout` rate. -/
theorem Decoder.init_forward_dropout_field (d : Decoder) (p : ℚ) (Ω : RandStream)
    (hs X : Tensor3) (cs : Option Tensor3) :
    ((({ d with dropout := p }).init_hidden hs cs).forward Ω X).2 =
      ((d.init_hidden hs cs).forward Ω X).2 := rfl

/-! ### C9: single-layer modules never instantiate or apply dropout -/

theorem mkEncoder_dropouts_ne_nil (n hd : Nat) (ps : ParamSupply) (layers : Nat)
    (q : ℚ) (norm : Option NormKind) :
    (mkEncoder n hd ps layers q norm).dropouts ≠ [] ↔ 1 < layers ∧ 0 < q := by
  unfold mkEncoder
  by_cases h : 1 < layers ∧ 0 < q
  · simp only [h, if_true, if_pos]
    simp [List.replicate_eq_nil_iff]
    omega
  · simp [h]

theorem mkDecoder_dropouts_ne_nil (n hd : Nat) (ps : ParamSupply) (layers : Nat)
    (q : ℚ) (norm : Option NormKind) (heads : Nat) :
    (mkDecoder n hd ps layers q norm heads).dropouts ≠ [] ↔ 1 < layers ∧ 0 < q := by
  unfold mkDecoder
  by_cases h : 1 < layers ∧ 0 < q
  · simp only [h, if_true, if_pos]
    simp [List.replicate_eq_nil_iff]
    omega
  · simp [h]

/-- C9.  With `num_rnn_layers = 1` the dropouts list is empty, so `forward`
applies no dropout — for any dropout rate, in any training mode, under any
randomness — and the output is independent of the dropout argument; dropout
modules exist exactly when `num_rnn_layers > 1` and `dropout > 0`. -/
theorem C9_single_layer_dropout_inert (n hd : Nat) (ps : ParamSupply) (p p' q : ℚ)
    (norm : Option NormKind) (heads : Nat) (tr : Bool) (Ωe Ωe' Ωd Ωd' : RandStream)
    (X hs : Tensor3) (cs : Option Tensor3) (layers : Nat) :
    (mkEncoder n hd ps 1 p norm).dropouts = [] ∧
    (mkDecoder n hd ps 1 p norm heads).dropouts = [] ∧
    (({ mkEncoder n hd ps 1 p norm with training := tr }).forward Ωe X).2 =
      (({ mkEncoder n hd ps 1 p' norm with training := tr }).forward Ωe' X).2 ∧
    ((({ mkDecoder n hd ps 1 p norm heads with training := tr }).init_hidden hs cs).forward
        Ωd X).2 =
      ((({ mkDecoder n hd ps 1 p' norm heads with training := tr }).init_hidden hs cs).forward
        Ωd' X).2 ∧
    ((mkEncoder n hd ps layers q norm).dropouts ≠ [] ↔ 1 < layers ∧ 0 < q) ∧
    ((mkDecoder n hd ps layers q norm heads).dropouts ≠ [] ↔ 1 < layers ∧ 0 < q) := by
  have heq : mkEncoder n hd ps 1 p norm =
      { mkEncoder n hd ps 1 p' norm with dropout := p } := by
    simp [mkEncoder]
  have heqd : mkDecoder n hd ps 1 p norm heads =
      { mkDecoder n hd ps 1 p' norm heads with dropout := p } := by
    simp [mkDecoder]
  refine ⟨by simp [mkEncoder], by simp [mkDecoder], ?_, ?_,
    mkEncoder_dropouts_ne_nil n hd ps layers q norm,
    mkDecoder_dropouts_ne_nil n hd ps layers q norm heads⟩
  · rw [heq]
    show (({ { mkEncoder n hd ps 1 p' norm with training := tr } with dropout := p }).forward
        Ωe X).2 = _
    rw [Encoder.forward_dropout_field]
    exact congrArg Prod.snd
      (enc_forward_rand_irrel _ Ωe Ωe' X (by simp [mkEncoder]))
  · rw [heqd]
    show ((({ { mkDecoder n hd ps 1 p' norm heads with training := tr } with
        dropout := p }).init_hidden hs cs).forward Ωd X).2 = _
    rw [Decoder.init_forward_dropout_field]
    exact congrArg Prod.snd
      (dec_forward_rand_irrel _ Ωd Ωd' X (by simp [Decoder.init_hidden, mkDecoder]))

/-! ### C10: the dedicated cell-normalization module is inert -/

/-- `__apply_normalization` reads `self.cell_normalization` only through its
`None`-check: the module's own transformation never runs. -/
theorem applyNormCore_celN (outN hidN : Option NormLayer) (n n' : NormLayer)
    (t : Tensor3) (st : RecState) :
    applyNormalizationCore outN hidN (some n) t st =
      applyNormalizationCore outN hidN (some n') t st := rfl

theorem postProcess_celN (outN hidN : Option NormLayer) (n n' : NormLayer)
    (dropouts : List ℚ) (tr : Bool) (Ω : RandStream) (i : Nat) (st : Tensor3 × RecState) :
    postProcess outN hidN (some n) dropouts tr Ω i st =
      postProcess outN hidN (some n') dropouts tr Ω i st := by
  unfold postProcess
  rw [applyNormCore_celN outN hidN n n' st.1 st.2]

theorem runLayer_celN (outN hidN : Option NormLayer) (n n' : NormLayer)
    (dropouts : List ℚ) (tr : Bool) (Ω : RandStream) (i : Nat) (c : RnnCell)
    (st : Tensor3 × RecState) :
    runLayer outN hidN (some n) dropouts tr Ω i c st =
      runLayer outN hidN (some n') dropouts tr Ω i c st := by
  unfold runLayer
  rw [postProcess_celN]

theorem runLayers_celN (outN hidN : Option NormLayer) (n n' : NormLayer)
    (dropouts : List ℚ) (tr : Bool) (Ω : RandStream) :
    ∀ (cs : List RnnCell) (i : Nat) (st : Tensor3 × RecState),
      runLayers outN hidN (some n) dropouts tr Ω i cs st =
        runLayers outN hidN (some n') dropouts tr Ω i cs st
  | [], _, _ => rfl
  | c :: cs, i, st => by
      rw [runLayers, runLayers, runLayer_celN outN hidN n n' dropouts tr Ω i c st]
      exact runLayers_celN outN hidN n n' dropouts tr Ω cs (i + 1) _

/-- The encoder's forward output and returned cell state are independent of
the `cell_normalization` module's parameters. -/
theorem enc_forward_celN (e : Encoder) (n n' : NormLayer) (Ω : RandStream)
    (X : Tensor3) (he : e.cell_normalization = some n) :
    (({ e with cell_normalization := some n' }).forward Ω X).2 = (e.forward Ω X).2 := by
  unfold Encoder.forward
  rw [he]
  simp only [postProcess_celN e.out_normalization e.hidden_normalization n' n,
    runLayers_celN e.out_normalization e.hidden_normalization n' n]

/-- The decoder's forward output is independent of the `cell_normalization`
module's parameters. -/
theorem dec_forward_celN (d : Decoder) (n n' : NormLayer) (Ω : RandStream)
    (X : Tensor3) (hd : d.cell_normalization = some n) :
    (({ d with cell_normalization := some n' }).forward Ω X).2 = (d.forward Ω X).2 := by
  unfold Decoder.forward
  rw [hd]
  simp only [postProcess_celN d.out_normalization d.hidden_normalization n' n,
    runLayers_celN d.out_normalization d.hidden_normalization n' n]

/-- C10.  `__apply_normalization` applies `out_normalization` (not the
dedicated `cell_normalization`) to the cell state, reading
`cell_normalization` only through its `None`-check; hence the module is
constructed for LSTM cells under normalization, yet its parameters never
influence any forward-pass output of encoder or decoder. -/
theorem C10_cell_normalization_inert
    (outN hidN : Option NormLayer) (n n' : NormLayer) (t : Tensor3) (st : RecState)
    (h : Option Tensor3) (cv : Tensor3)
    (e : Encoder) (d : Decoder) (ne ne' nd nd' : NormLayer) (Ω Ωd : RandStream)
    (X hs Xd : Tensor3) (cso : Option Tensor3)
    (nf hd2 : Nat) (ps : ParamSupply) (layers : Nat) (p : ℚ) (k : NormKind)
    (he : e.cell_normalization = some ne)
    (hdc : d.cell_normalization = some nd)
    (hty : (ps.cellFab 0 nf hd2).ty = RnnType.LSTM) :
    applyNormalizationCore outN hidN (some n) t st =
      applyNormalizationCore outN hidN (some n') t st ∧
    (applyNormalizationCore outN hidN (some n) t ⟨h, some cv⟩).2.cell =
      some (if isBatch outN then permute201 (applyNormOpt outN (permute120 cv))
        else applyNormOpt outN cv) ∧
    (({ e with cell_normalization := some ne' }).forward Ω X).2 = (e.forward Ω X).2 ∧
    ((({ d with cell_normalization := some nd' }).init_hidden hs cso).forward Ωd Xd).2 =
      ((d.init_hidden hs cso).forward Ωd Xd).2 ∧
    (mkEncoder nf hd2 ps layers p (some k)).cell_normalization = some ⟨k, ps.normFab 2⟩ ∧
    (mkDecoder nf hd2 ps layers p (some k) 0).cell_normalization = some ⟨k, ps.normFab 2⟩ := by
  refine ⟨applyNormCore_celN outN hidN n n' t st, ?_,
    enc_forward_celN e ne ne' Ω X he, ?_, ?_, ?_⟩
  · cases hb : isBatch outN <;> simp [applyNormalizationCore, hb]
  · have hinit : ({ d with cell_normalization := some nd' }).init_hidden hs cso =
        { d.init_hidden hs cso with cell_normalization := some nd' } := rfl
    rw [hinit]
    exact dec_forward_celN (d.init_hidden hs cso) nd nd' Ωd Xd hdc
  · simp [mkEncoder, hty]
  · simp [mkDecoder, hty]

/-- A concrete single-layer LSTM encoder with layer normalization. -/
def exEncL : Encoder := mkEncoder 1 1 exSupplyL 1 0 (some NormKind.Layer)

/-- A concrete single-layer LSTM decoder with layer normalization. -/
def exDecL : Decoder := mkDecoder 1 1 exSupplyL 1 0 (some NormKind.Layer) 0

/-- A concrete randomness stream (all mask draws false). -/
def exΩ : RandStream := fun _ _ _ _ _ => false

/-- The identity layer-normalization module instance. -/
def exNormId : NormLayer := ⟨NormKind.Layer, id⟩

/-- A degenerate layer-normalization module with different parameters. -/
def exNormNil : NormLayer := ⟨NormKind.Layer, fun _ => []⟩

/-- A concrete `(1, 1, 1)` input tensor. -/
def exX1 : Tensor3 := [[[1]]]

/-- Closed instance of C10: swapping the cell-normalization module of a
concrete LSTM encoder leaves the forward output unchanged. -/
theorem C10_cell_normalization_inert_witness :
    (({ exEncL with cell_normalization := some exNormNil }).forward exΩ exX1).2 =
      (exEncL.forward exΩ exX1).2 :=
  (C10_cell_normalization_inert none none exNormId exNormNil [] ⟨none, none⟩ none []
    exEncL exDecL exNormId exNormNil exNormId exNormNil exΩ exΩ exX1 exX1 exX1 none
    1 1 exSupplyL 1 0 NormKind.Layer rfl rfl rfl).2.2.1

/-! ### Shape infrastructure for rectangular tensors -/

theorem getD_mem {α : Type} (l : List α) (i : Nat) (d : α) (h : i < l.length) :
    l.getD i d ∈ l := by
  rw [List.getD_eq_getElem l d h]
  exact List.getElem_mem h

theorem build3_shape (a b c : Nat) (f : Nat → Nat → Nat → ℚ) :
    HasShape3 (build3 a b c f) a b c := by
  refine ⟨by simp [build3], ?_⟩
  intro m hm
  simp only [build3, List.mem_map, List.mem_range] at hm
  obtain ⟨i, _, rfl⟩ := hm
  refine ⟨by simp, ?_⟩
  intro v hv
  simp only [List.mem_map, List.mem_range] at hv
  obtain ⟨j, _, rfl⟩ := hv
  simp

theorem getD_map_range {α : Type} (n : Nat) (g : Nat → α) (i : Nat) (d : α)
    (h : i < n) : ((List.range n).map g).getD i d = g i := by
  rw [List.getD_eq_getElem _ _ (by simpa using h)]
  simp

theorem idx3_build3 (a b c : Nat) (f : Nat → Nat → Nat → ℚ) (i j k : Nat)
    (hi : i < a) (hj : j < b) (hk : k < c) :
    idx3 (build3 a b c f) i j k = f i j k := by
  unfold idx3 build3
  rw [getD_map_range _ _ _ _ hi, getD_map_range _ _ _ _ hj, getD_map_range _ _ _ _ hk]

theorem shapeOf3_eq (t : Tensor3) (a b c : Nat) (h : HasShape3 t a b c)
    (ha : 0 < a) (hb : 0 < b) : shapeOf3 t = (a, b, c) := by
  obtain ⟨h1, h2⟩ := h
  have hrow : t.getD 0 [] ∈ t := getD_mem t 0 [] (by omega)
  obtain ⟨hr1, hr2⟩ := h2 _ hrow
  have hv : (t.getD 0 []).getD 0 [] ∈ t.getD 0 [] := getD_mem _ 0 [] (by omega)
  unfold shapeOf3
  rw [h1, hr1, hr2 _ hv]

theorem ext3 (t s : Tensor3) (a b c : Nat) (ht : HasShape3 t a b c)
    (hs : HasShape3 s a b c)
    (he : ∀ i j k, i < a → j < b → k < c → idx3 t i j k = idx3 s i j k) : t = s := by
  apply List.ext_getElem (by rw [ht.1, hs.1])
  intro i hti hsi
  have hmem : t[i] ∈ t := List.getElem_mem hti
  have hmem' : s[i] ∈ s := List.getElem_mem hsi
  obtain ⟨hb1, hb2⟩ := ht.2 _ hmem
  obtain ⟨hb1', hb2'⟩ := hs.2 _ hmem'
  apply List.ext_getElem (by rw [hb1, hb1'])
  intro j htj hsj
  have hvm : t[i][j] ∈ t[i] := List.getElem_mem htj
  have hvm' : s[i][j] ∈ s[i] := List.getElem_mem hsj
  apply List.ext_getElem (by rw [hb2 _ hvm, hb2' _ hvm'])
  intro k htk hsk
  have hia : i < a := by rw [← ht.1]; exact hti
  have hjb : j < b := by rw [← hb1]; exact htj
  have hkc : k < c := by rw [← hb2 _ hvm]; exact htk
  have hidx := he i j k hia hjb hkc
  unfold idx3 at hidx
  rw [List.getD_eq_getElem _ _ hti, List.getD_eq_getElem _ _ htj,
    List.getD_eq_getElem _ _ htk, List.getD_eq_getElem _ _ hsi,
    List.getD_eq_getElem _ _ hsj, List.getD_eq_getElem _ _ hsk] at hidx
  exact hidx

theorem permute021_build (t : Tensor3) (a b c : Nat) (h : HasShape3 t a b c)
    (ha : 0 < a) (hb : 0 < b) :
    permute021 t = build3 a c b fun i j k => idx3 t i k j := by
  unfold permute021
  rw [shapeOf3_eq t a b c h ha hb]

theorem permute102_build (t : Tensor3) (a b c : Nat) (h : HasShape3 t a b c)
    (ha : 0 < a) (hb : 0 < b) :
    permute102 t = build3 b a c fun i j k => idx3 t j i k := by
  unfold permute102
  rw [shapeOf3_eq t a b c h ha hb]

theorem permute120_build (t : Tensor3) (a b c : Nat) (h : HasShape3 t a b c)
    (ha : 0 < a) (hb : 0 < b) :
    permute120 t = build3 b c a fun i j k => idx3 t k i j := by
  unfold permute120
  rw [shapeOf3_eq t a b c h ha hb]

theorem permute201_build (t : Tensor3) (a b c : Nat) (h : HasShape3 t a b c)
    (ha : 0 < a) (hb : 0 < b) :
    permute201 t = build3 c a b fun i j k => idx3 t j k i := by
  unfold permute201
  rw [shapeOf3_eq t a b c h ha hb]

theorem permute021_shape (t : Tensor3) (a b c : Nat) (h : HasShape3 t a b c)
    (ha : 0 < a) (hb : 0 < b) : HasShape3 (permute021 t) a c b := by
  rw [permute021_build t a b c h ha hb]
  exact build3_shape ..

theorem permute102_shape (t : Tensor3) (a b c : Nat) (h : HasShape3 t a b c)
    (ha : 0 < a) (hb : 0 < b) : HasShape3 (permute102 t) b a c := by
  rw [permute102_build t a b c h ha hb]
  exact build3_shape ..

theorem permute120_shape (t : Tensor3) (a b c : Nat) (h : HasShape3 t a b c)
    (ha : 0 < a) (hb : 0 < b) : HasShape3 (permute120 t) b c a := by
  rw [permute120_build t a b c h ha hb]
  exact build3_shape ..

theorem permute201_shape (t : Tensor3) (a b c : Nat) (h : HasShape3 t a b c)
    (ha : 0 < a) (hb : 0 < b) : HasShape3 (permute201 t) c a b := by
  rw [permute201_build t a b c h ha hb]
  exact build3_shape ..

/-- `permute(0,2,1)` twice is the identity on (nondegenerate) rectangular
tensors. -/
theorem permute021_involutive (t : Tensor3) (a b c : Nat) (h : HasShape3 t a b c)
    (ha : 0 < a) (hb : 0 < b) (hc : 0 < c) : permute021 (permute021 t) = t := by
  rw [permute021_build t a b c h ha hb]
  rw [permute021_build _ a c b (build3_shape ..) ha hc]
  apply ext3 _ t a b c (build3_shape ..) h
  intro i j k hi hj hk
  rw [idx3_build3 _ _ _ _ _ _ _ hi hj hk]
  exact idx3_build3 _ _ _ _ _ _ _ hi hk hj

/-- `permute(2,0,1)` undoes `permute(1,2,0)` on (nondegenerate) rectangular
tensors. -/
theorem permute201_permute120 (t : Tensor3) (a b c : Nat) (h : HasShape3 t a b c)
    (ha : 0 < a) (hb : 0 < b) (hc : 0 < c) : permute201 (permute120 t) = t := by
  rw [permute120_build t a b c h ha hb]
  rw [permute201_build _ b c a (build3_shape ..) hb hc]
  apply ext3 _ t a b c (build3_shape ..) h
  intro i j k hi hj hk
  rw [idx3_build3 _ _ _ _ _ _ _ hi hj hk]
  exact idx3_build3 _ _ _ _ _ _ _ hj hk hi

/-- C6.  In the batch-normalization path of `__apply_normalization`, the
round trips `permute(0,2,1); permute(0,2,1)` and `permute(1,2,0);
permute(2,0,1)` are identities on rectangular tensors, and consequently the
layer output, hidden state and cell state leave `__apply_normalization` with
exactly the axis ordering (shape) they entered with. -/
theorem C6_batch_normalization_round_trip :
    (∀ (t : Tensor3) (a b c : Nat), HasShape3 t a b c → 0 < a → 0 < b → 0 < c →
      permute021 (permute021 t) = t) ∧
    (∀ (t : Tensor3) (a b c : Nat), HasShape3 t a b c → 0 < a → 0 < b → 0 < c →
      permute201 (permute120 t) = t) ∧
    (∀ (no nh : NormLayer) (celN : Option NormLayer) (t h c : Tensor3) (N L H : Nat),
      no.nty = NormKind.Batch → NormFunWF no.f → NormFunWF nh.f →
      HasShape3 t N L H → HasShape3 h 1 N H → HasShape3 c 1 N H →
      0 < N → 0 < L → 0 < H →
      HasShape3 (applyNormalizationCore (some no) (some nh) celN t ⟨some h, some c⟩).1 N L H ∧
      (∃ h2, (applyNormalizationCore (some no) (some nh) celN t ⟨some h, some c⟩).2.hidden
          = some h2 ∧ HasShape3 h2 1 N H) ∧
      (∃ c2, (applyNormalizationCore (some no) (some nh) celN t ⟨some h, some c⟩).2.cell
          = some c2 ∧ HasShape3 c2 1 N H)) := by
  refine ⟨fun t a b c h ha hb hc => permute021_involutive t a b c h ha hb hc,
    fun t a b c h ha hb hc => permute201_permute120 t a b c h ha hb hc, ?_⟩
  intro no nh celN t h c N L H hn wfo wfh ht hh hc hN hL hH
  have hbatch : isBatch (some no) = true := by simp [isBatch, hn]
  unfold applyNormalizationCore
  rw [hbatch]
  simp only [if_true, Option.map_some]
  have hout : HasShape3 (permute021 (applyNormOpt (some no) (permute021 t))) N L H := by
    have h1 := permute021_shape t N L H ht hN hL
    have h2 : HasShape3 (applyNormOpt (some no) (permute021 t)) N H L := wfo _ N H L h1
    exact permute021_shape _ N H L h2 hN hH
  have hhid : HasShape3 (permute201 (applyNormOpt (some nh) (permute120 h))) 1 N H := by
    have h1 := permute120_shape h 1 N H hh (by omega) hN
    have h2 : HasShape3 (applyNormOpt (some nh) (permute120 h)) N H 1 := wfh _ N H 1 h1
    exact permute201_shape _ N H 1 h2 hN hH
  have hc1 := permute120_shape c 1 N H hc (by omega) hN
  cases hcel : celN.isSome
  · simp only [hcel, Bool.false_eq_true, if_false]
    exact ⟨hout, ⟨_, rfl, hhid⟩, ⟨_, rfl, permute201_shape _ N H 1 hc1 hN hH⟩⟩
  · simp only [hcel, if_true]
    have h2 : HasShape3 (applyNormOpt (some no) (permute120 c)) N H 1 := wfo _ N H 1 hc1
    exact ⟨hout, ⟨_, rfl, hhid⟩, ⟨_, rfl, permute201_shape _ N H 1 h2 hN hH⟩⟩

/-- A concrete `(1, 2, 2)` tensor. -/
def exT122 : Tensor3 := [[[(1 : ℚ), 2], [3, 4]]]

/-- The identity batch-normalization module instance. -/
def exNormB : NormLayer := ⟨NormKind.Batch, id⟩

/-- Closed instance of C6 on a concrete `(1, 2, 2)` tensor and a concrete
batch-normalization invocation. -/
theorem C6_batch_normalization_round_trip_witness :
    permute021 (permute021 exT122) = exT122 ∧
    permute201 (permute120 exT122) = exT122 ∧
    HasShape3 (applyNormalizationCore (some exNormB) (some exNormB) none exX1
      ⟨some exX1, some exX1⟩).1 1 1 1 :=
  ⟨C6_batch_normalization_round_trip.1 exT122 1 2 2 (by decide) (by decide) (by decide)
      (by decide),
   C6_batch_normalization_round_trip.2.1 exT122 1 2 2 (by decide) (by decide) (by decide)
      (by decide),
   (C6_batch_normalization_round_trip.2.2 exNormB exNormB none exX1 exX1 exX1 1 1 1 rfl
      (fun _ _ _ _ h => h) (fun _ _ _ _ h => h) (by decide) (by decide) (by decide)
      (by decide) (by decide) (by decide)).1⟩

/-! ### C8: decoder state seeding -/

theorem lastSlice_map_shape (hs : Tensor3) (N L H : Nat) (h : HasShape3 hs N L H)
    (hL : 0 < L) : HasShape3 (hs.map lastSlice) N 1 H := by
  refine ⟨by simp [h.1], ?_⟩
  intro m hm
  obtain ⟨m₀, hm₀, rfl⟩ := List.mem_map.mp hm
  obtain ⟨hb, hc⟩ := h.2 m₀ hm₀
  refine ⟨?_, ?_⟩
  · unfold lastSlice
    rw [List.length_drop, hb]
    omega
  · intro v hv
    exact hc v (List.mem_of_mem_drop hv)

/-- C8.  `init_hidden` sets the decoder hidden state to the encoder's last
timestep `hidden_seq[:, -1:]` reshaped to `(1, N, H)`; a provided cell state
is forwarded unchanged, and an absent one is replaced by zeros of the same
`(1, N, H)` shape. -/
theorem C8_init_hidden_seeding (d : Decoder) (hs : Tensor3) (N L H : Nat)
    (h : HasShape3 hs N L H) (hN : 0 < N) (hL : 0 < L) (hH : 0 < H)
    (cs : Tensor3) :
    (∃ ht, (∀ cso, (d.init_hidden hs cso).hidden = some ht) ∧ HasShape3 ht 1 N H ∧
      ∀ n k, n < N → k < H → idx3 ht 0 n k = idx3 hs n (L - 1) k) ∧
    (d.init_hidden hs (some cs)).cell_state = some cs ∧
    (d.init_hidden hs none).cell_state = some (zeros3 1 N H) := by
  have hmap : HasShape3 (hs.map lastSlice) N 1 H := lastSlice_map_shape hs N L H h hL
  have hhid : HasShape3 (permute102 (hs.map lastSlice)) 1 N H :=
    permute102_shape _ N 1 H hmap hN (by omega)
  refine ⟨⟨permute102 (hs.map lastSlice), fun cso => rfl, hhid, ?_⟩, rfl, ?_⟩
  · intro n k hn hk
    rw [permute102_build (hs.map lastSlice) N 1 H hmap hN (by omega)]
    rw [idx3_build3 1 N H _ 0 n k (by omega) hn hk]
    unfold idx3
    have hn' : n < hs.length := by rw [h.1]; exact hn
    rw [List.getD_eq_getElem (hs.map lastSlice) [] (by simpa using hn'),
      List.getElem_map, List.getD_eq_getElem hs [] hn']
    have hrow := h.2 hs[n] (List.getElem_mem hn')
    have hdl : (lastSlice hs[n]).length = 1 := by
      unfold lastSlice
      rw [List.length_drop, hrow.1]
      omega
    rw [List.getD_eq_getElem (lastSlice hs[n]) [] (by rw [hdl]; omega),
      List.getD_eq_getElem hs[n] [] (by rw [hrow.1]; omega)]
    congr 1
    unfold lastSlice
    rw [List.getElem_drop]
    congr 1
    rw [hrow.1]
    omega
  · have hsh := shapeOf3_eq _ 1 N H hhid (by omega) hN
    show some (zeros3 (shapeOf3 (permute102 (hs.map lastSlice))).1
      (shapeOf3 (permute102 (hs.map lastSlice))).2.1
      (shapeOf3 (permute102 (hs.map lastSlice))).2.2) = some (zeros3 1 N H)
    rw [hsh]

/-- Closed instance of C8 on a concrete decoder and `(1, 2, 2)` encoder
hidden sequence. -/
theorem C8_init_hidden_seeding_witness :
    (exDecL.init_hidden exT122 (some exX1)).cell_state = some exX1 ∧
    (exDecL.init_hidden exT122 none).cell_state = some (zeros3 1 1 2) :=
  ⟨(C8_init_hidden_seeding exDecL exT122 1 2 2 (by decide) (by decide) (by decide)
      (by decide) exX1).2.1,
   (C8_init_hidden_seeding exDecL exT122 1 2 2 (by decide) (by decide) (by decide)
      (by decide) exX1).2.2⟩

/-! ### C3: cell-state lifecycle -/

theorem applyNormCore_cell_none (outN hidN celN : Option NormLayer) (t : Tensor3)
    (st : RecState) (h : st.cell = none) :
    (applyNormalizationCore outN hidN celN t st).2.cell = none := by
  unfold applyNormalizationCore
  rw [h]
  simp [ite_self]

theorem applyNormCore_cell_isSome (outN hidN celN : Option NormLayer) (t : Tensor3)
    (st : RecState) (h : st.cell.isSome = true) :
    (applyNormalizationCore outN hidN celN t st).2.cell.isSome = true := by
  obtain ⟨x, hx⟩ := Option.isSome_iff_exists.mp h
  unfold applyNormalizationCore
  rw [hx]
  by_cases hb : isBatch outN = true <;> by_cases hcn : celN.isSome = true <;>
    simp [hb, hcn]

theorem postProcess_cell_none (outN hidN celN : Option NormLayer) (dropouts : List ℚ)
    (tr : Bool) (Ω : RandStream) (i : Nat) (st : Tensor3 × RecState)
    (h : st.2.cell = none) :
    (postProcess outN hidN celN dropouts tr Ω i st).2.cell = none := by
  unfold postProcess
  by_cases hn : outN.isSome = true <;>
    by_cases hd : (!dropouts.isEmpty && tr) = true <;>
      simp [hn, hd, applyDropoutCore, applyNormCore_cell_none _ _ _ _ _ h, h]

theorem postProcess_cell_isSome (outN hidN celN : Option NormLayer) (dropouts : List ℚ)
    (tr : Bool) (Ω : RandStream) (i : Nat) (st : Tensor3 × RecState)
    (h : st.2.cell.isSome = true) :
    (postProcess outN hidN celN dropouts tr Ω i st).2.cell.isSome = true := by
  unfold postProcess
  by_cases hn : outN.isSome = true <;>
    by_cases hd : (!dropouts.isEmpty && tr) = true <;>
      simp [hn, hd, applyDropoutCore, applyNormCore_cell_isSome _ _ _ _ _ h, h,
        Option.isSome_map]

theorem runLayer_cell_none (outN hidN celN : Option NormLayer) (dropouts : List ℚ)
    (tr : Bool) (Ω : RandStream) (i : Nat) (c : RnnCell) (st : Tensor3 × RecState)
    (hty : c.ty = RnnType.GRU) (h : st.2.cell = none) :
    (runLayer outN hidN celN dropouts tr Ω i c st).2.cell = none := by
  unfold runLayer
  rw [hty]
  exact postProcess_cell_none _ _ _ _ _ _ _ _ h

theorem runLayer_cell_isSome (outN hidN celN : Option NormLayer) (dropouts : List ℚ)
    (tr : Bool) (Ω : RandStream) (i : Nat) (c : RnnCell) (st : Tensor3 × RecState)
    (h : st.2.cell.isSome = true) :
    (runLayer outN hidN celN dropouts tr Ω i c st).2.cell.isSome = true := by
  unfold runLayer
  cases hty : c.ty
  · exact postProcess_cell_isSome _ _ _ _ _ _ _ _ h
  · exact postProcess_cell_isSome _ _ _ _ _ _ _ _ rfl

theorem runLayers_cell_none (outN hidN celN : Option NormLayer) (dropouts : List ℚ)
    (tr : Bool) (Ω : RandStream) :
    ∀ (cs : List RnnCell) (i : Nat) (st : Tensor3 × RecState),
      (∀ c ∈ cs, c.ty = RnnType.GRU) → st.2.cell = none →
      (runLayers outN hidN celN dropouts tr Ω i cs st).2.cell = none
  | [], _, _, _, h => h
  | c :: cs, i, st, hall, h => by
      rw [runLayers]
      exact runLayers_cell_none outN hidN celN dropouts tr Ω cs (i + 1) _
        (fun c' hc' => hall c' (List.mem_cons_of_mem _ hc'))
        (runLayer_cell_none _ _ _ _ _ _ _ _ _ (hall c (List.mem_cons_self _ _)) h)

theorem runLayers_cell_isSome (outN hidN celN : Option NormLayer) (dropouts : List ℚ)
    (tr : Bool) (Ω : RandStream) :
    ∀ (cs : List RnnCell) (i : Nat) (st : Tensor3 × RecState),
      st.2.cell.isSome = true →
      (runLayers outN hidN celN dropouts tr Ω i cs st).2.cell.isSome = true
  | [], _, _, h => h
  | c :: cs, i, st, h => by
      rw [runLayers]
      exact runLayers_cell_isSome outN hidN celN dropouts tr Ω cs (i + 1) _
        (runLayer_cell_isSome _ _ _ _ _ _ _ _ _ h)

/-- An all-GRU encoder whose cell state starts out `None` never populates it
and returns `None` as its cell state. -/
theorem enc_forward_cell_none (e : Encoder) (Ω : RandStream) (X : Tensor3)
    (hnil : e.cell_state = none) (hb : e.basic_rnn.ty = RnnType.GRU)
    (hall : ∀ c ∈ e.rnns, c.ty = RnnType.GRU) :
    (e.forward Ω X).1.cell_state = none ∧ (e.forward Ω X).2.2 = none := by
  unfold Encoder.forward
  rw [hb]
  have h0 : ((gruForward e.basic_rnn X none).1,
      (⟨some (gruForward e.basic_rnn X none).2, e.cell_state⟩ : RecState)).2.cell = none := hnil
  have h1 := postProcess_cell_none e.out_normalization e.hidden_normalization
    e.cell_normalization e.dropouts e.training Ω 0 _ h0
  have h2 := runLayers_cell_none e.out_normalization e.hidden_normalization
    e.cell_normalization e.dropouts e.training Ω e.rnns 1 _ hall h1
  exact ⟨h2, h2⟩

/-- An LSTM first layer makes the encoder's cell state non-null, and it stays
non-null through the stacked layers and the returned value. -/
theorem enc_forward_cell_isSome (e : Encoder) (Ω : RandStream) (X : Tensor3)
    (hb : e.basic_rnn.ty = RnnType.LSTM) :
    ((e.forward Ω X).1.cell_state).isSome = true ∧
    ((e.forward Ω X).2.2).isSome = true := by
  unfold Encoder.forward
  rw [hb]
  have h1 := postProcess_cell_isSome e.out_normalization e.hidden_normalization
    e.cell_normalization e.dropouts e.training Ω 0
    ((lstmForward e.basic_rnn X none).1,
      (⟨some (lstmForward e.basic_rnn X none).2.1,
        some (lstmForward e.basic_rnn X none).2.2⟩ : RecState)) rfl
  have h2 := runLayers_cell_isSome e.out_normalization e.hidden_normalization
    e.cell_normalization e.dropouts e.training Ω e.rnns 1 _ h1
  exact ⟨h2, h2⟩

/-- Once the decoder's cell state is non-null (as `init_hidden` guarantees),
`forward` keeps it non-null through every layer. -/
theorem dec_forward_cell_isSome (d : Decoder) (Ω : RandStream) (X : Tensor3)
    (hc : d.cell_state.isSome = true) :
    ((d.forward Ω X).1.cell_state).isSome = true := by
  unfold Decoder.forward
  cases hb : d.basic_rnn.ty
  · have h1 := postProcess_cell_isSome d.out_normalization d.hidden_normalization
      d.cell_normalization d.dropouts d.training Ω 0
      ((gruForward d.basic_rnn X d.hidden).1,
        (⟨some (gruForward d.basic_rnn X d.hidden).2, d.cell_state⟩ : RecState)) hc
    exact runLayers_cell_isSome _ _ _ _ _ _ d.rnns 1 _ h1
  · have h1 := postProcess_cell_isSome d.out_normalization d.hidden_normalization
      d.cell_normalization d.dropouts d.training Ω 0
      ((lstmForward d.basic_rnn X (some (d.hidden.getD [], d.cell_state.getD []))).1,
        (⟨some (lstmForward d.basic_rnn X
            (some (d.hidden.getD [], d.cell_state.getD []))).2.1,
          some (lstmForward d.basic_rnn X
            (some (d.hidden.getD [], d.cell_state.getD []))).2.2⟩ : RecState)) rfl
    exact runLayers_cell_isSome _ _ _ _ _ _ d.rnns 1 _ h1

/-- `init_hidden` always leaves the decoder cell state non-null (a forwarded
tensor or a zero tensor). -/
theorem Decoder.init_hidden_cell_isSome (d : Decoder) (hs : Tensor3)
    (cso : Option Tensor3) : ((d.init_hidden hs cso).cell_state).isSome = true := by
  cases cso <;> rfl

theorem mkEncoder_rnns_ty (nf hd : Nat) (ps : ParamSupply) (layers : Nat) (p : ℚ)
    (norm : Option NormKind) (T : RnnType) (h : ∀ i a b, (ps.cellFab i a b).ty = T) :
    ∀ c ∈ (mkEncoder nf hd ps layers p norm).rnns, c.ty = T := by
  intro c hc
  simp only [mkEncoder] at hc
  by_cases h1 : 1 < layers
  · simp only [h1, if_true, List.mem_map, List.mem_range] at hc
    obtain ⟨i, _, rfl⟩ := hc
    exact h _ _ _
  · simp [h1] at hc

theorem mkDecoder_rnns_ty (nf hd : Nat) (ps : ParamSupply) (layers : Nat) (p : ℚ)
    (norm : Option NormKind) (heads : Nat) (T : RnnType)
    (h : ∀ i a b, (ps.cellFab i a b).ty = T) :
    ∀ c ∈ (mkDecoder nf hd ps layers p norm heads).rnns, c.ty = T := by
  intro c hc
  simp only [mkDecoder] at hc
  by_cases h1 : 1 < layers
  · simp only [h1, if_true, List.mem_map, List.mem_range] at hc
    obtain ⟨i, _, rfl⟩ := hc
    exact h _ _ _
  · simp [h1] at hc

/-- A concrete all-GRU single-layer model (`seq_len = 1`). -/
def exModelG : EncoderDecoder :=
  { encoder := mkEncoder 1 1 exSupplyG 1 0 none,
    decoder := mkDecoder 1 1 exSupplyG 1 0 none 0,
    input_len := 1, target_len := 1, teacher_forcing_prob := 0, outputs := none }

/-- C3 counterexample.  On an all-GRU model, after one forward pass the
decoder's cell state is *not* null: `init_hidden` populated it with a zero
tensor, contradicting "it stays null in both Encoder and Decoder throughout
the pass". -/
theorem C3_cell_state_counterexample :
    create_encoder_decoder_model 1 1 exSupplyG exSupplyG 1 1 0 0 none 0 =
      Except.ok exModelG ∧
    exModelG.encoder.basic_rnn.ty = RnnType.GRU ∧
    exModelG.decoder.basic_rnn.ty = RnnType.GRU ∧
    exModelG.encoder.rnns = [] ∧ exModelG.decoder.rnns = [] ∧
    (exModelG.forward exΩ exΩ [[[1], [2]]]).1.decoder.cell_state ≠ none := by
  refine ⟨rfl, rfl, rfl, rfl, rfl, ?_⟩
  decide

/-- C3 (amended).  LSTM-type cells produce and propagate a non-null cell
state end-to-end (encoder returns it non-null and it stays non-null in both
modules after a full pass).  GRU-type cells never populate the *encoder's*
cell state (it stays null and the encoder returns null), but
`Decoder.init_hidden` populates the decoder's cell state with a zero tensor,
so the decoder's cell state is non-null, not null, for the rest of the
pass. -/
theorem C3_cell_state_propagation_amended
    (nf hd layers L heads : Nat) (tf p : ℚ) (norm : Option NormKind)
    (psE psD qsE qsD : ParamSupply) (m mG : EncoderDecoder)
    (Ωe Ωd : RandStream) (X Xs hs : Tensor3)
    (hok : create_encoder_decoder_model nf hd psE psD layers L tf p norm heads =
      Except.ok m)
    (hokG : create_encoder_decoder_model nf hd qsE qsD layers L tf p norm heads =
      Except.ok mG)
    (hE : ∀ i a b, (psE.cellFab i a b).ty = RnnType.LSTM)
    (hGE : ∀ i a b, (qsE.cellFab i a b).ty = RnnType.GRU)
    (hGD : ∀ i a b, (qsD.cellFab i a b).ty = RnnType.GRU) :
    ((m.encoder.forward Ωe Xs).2.2).isSome = true ∧
    ((m.forward Ωe Ωd X).1.encoder.cell_state).isSome = true ∧
    ((m.forward Ωe Ωd X).1.decoder.cell_state).isSome = true ∧
    (mG.encoder.forward Ωe Xs).2.2 = none ∧
    (mG.forward Ωe Ωd X).1.encoder.cell_state = none ∧
    (∀ (dec : Decoder) (cso : Option Tensor3),
      ((dec.init_hidden hs cso).cell_state).isSome = true) ∧
    ((mG.forward Ωe Ωd X).1.decoder.cell_state).isSome = true := by
  unfold create_encoder_decoder_model at hok hokG
  by_cases hcond : 0 < heads ∧ ¬hd % heads = 0
  · rw [if_pos hcond] at hok
    cases hok
  rw [if_neg hcond] at hok hokG
  injection hok with hok
  injection hokG with hokG
  subst hok
  subst hokG
  have hbE : (mkEncoder nf hd psE layers p norm).basic_rnn.ty = RnnType.LSTM :=
    hE 0 nf hd
  have hbGE : (mkEncoder nf hd qsE layers p norm).basic_rnn.ty = RnnType.GRU :=
    hGE 0 nf hd
  refine ⟨(enc_forward_cell_isSome _ Ωe Xs hbE).2,
    (enc_forward_cell_isSome _ Ωe _ hbE).1,
    dec_forward_cell_isSome _ Ωd _ (Decoder.init_hidden_cell_isSome _ _ _),
    (enc_forward_cell_none _ Ωe Xs rfl hbGE
      (mkEncoder_rnns_ty nf hd qsE layers p norm _ hGE)).2,
    (enc_forward_cell_none _ Ωe _ rfl hbGE
      (mkEncoder_rnns_ty nf hd qsE layers p norm _ hGE)).1,
    fun dec cso => Decoder.init_hidden_cell_isSome dec hs cso,
    dec_forward_cell_isSome _ Ωd _ (Decoder.init_hidden_cell_isSome _ _ _)⟩

/-- A concrete all-LSTM single-layer model (`seq_len = 1`). -/
def exModelL : EncoderDecoder :=
  { encoder := mkEncoder 1 1 exSupplyL 1 0 none,
    decoder := mkDecoder 1 1 exSupplyL 1 0 none 0,
    input_len := 1, target_len := 1, teacher_forcing_prob := 0, outputs := none }

/-- Closed instance of the amended C3 on concrete LSTM and GRU models. -/
theorem C3_cell_state_propagation_amended_witness :
    ((exModelL.forward exΩ exΩ [[[1], [2]]]).1.encoder.cell_state).isSome = true ∧
    (exModelG.forward exΩ exΩ [[[1], [2]]]).1.encoder.cell_state = none :=
  ⟨(C3_cell_state_propagation_amended 1 1 1 1 0 0 0 none exSupplyL exSupplyL
      exSupplyG exSupplyG exModelL exModelG exΩ exΩ [[[1], [2]]] [[[1], [2]]]
      [[[1], [2]]] rfl rfl (fun _ _ _ => rfl) (fun _ _ _ => rfl)
      (fun _ _ _ => rfl)).2.1,
   (C3_cell_state_propagation_amended 1 1 1 1 0 0 0 none exSupplyL exSupplyL
      exSupplyG exSupplyG exModelL exModelG exΩ exΩ [[[1], [2]]] [[[1], [2]]]
      [[[1], [2]]] rfl rfl (fun _ _ _ => rfl) (fun _ _ _ => rfl)
      (fun _ _ _ => rfl)).2.2.2.2.1⟩

/-! ### C5: determinism without normalization, dropout and attention -/

/-- C5.  A model constructed with `dropout = 0`, no normalization and
`narrow_attn_heads = 0` computes `forward` independently of the randomness
source: two invocations on the same input agree exactly (output and all
updated state), because no randomness-consuming module is active. -/
theorem C5_forward_deterministic (nf hd layers L : Nat) (tf : ℚ)
    (psE psD : ParamSupply) (m : EncoderDecoder) (Ωe Ωd Ωe' Ωd' : RandStream)
    (X : Tensor3)
    (hok : create_encoder_decoder_model nf hd psE psD layers L tf 0 none 0 =
      Except.ok m) :
    m.forward Ωe Ωd X = m.forward Ωe' Ωd' X := by
  unfold create_encoder_decoder_model at hok
  rw [if_neg (by simp)] at hok
  injection hok with hok
  subst hok
  have hde : (mkEncoder nf hd psE layers (0 : ℚ) none).dropouts = [] := by
    simp [mkEncoder]
  have hdd : ∀ hs cs, ((mkDecoder nf hd psD layers (0 : ℚ) none 0).init_hidden
      hs cs).dropouts = [] := by
    intro hs cs
    simp [Decoder.init_hidden, mkDecoder]
  unfold EncoderDecoder.forward
  simp only [EncoderDecoder.init_outputs]
  simp only [fun Y => enc_forward_rand_irrel (mkEncoder nf hd psE layers 0 none)
      Ωe Ωe' Y hde,
    fun hs cs Y => dec_forward_rand_irrel
      ((mkDecoder nf hd psD layers 0 none 0).init_hidden hs cs) Ωd Ωd' Y (hdd hs cs)]

/-- A concrete all-true randomness stream. -/
def exΩt : RandStream := fun _ _ _ _ _ => true

/-- Closed instance of C5: the concrete GRU model computes the same result
under two different randomness streams. -/
theorem C5_forward_deterministic_witness :
    exModelG.forward exΩ exΩ [[[1], [2]]] = exModelG.forward exΩt exΩt [[[1], [2]]] :=
  C5_forward_deterministic 1 1 1 1 0 exSupplyG exSupplyG exModelG exΩ exΩ exΩt exΩt
    [[[1], [2]]] rfl

/-! ### C4: single-shot decoding of the source window; dead output buffer -/

/-- C4.  `forward` encodes the first `input_len` timesteps, seeds the decoder
from the encoder's output, feeds that same source window through the decoder
exactly once and returns the decoder's output; `self.outputs` is allocated as
the all-zero `(batch, target_len, n_features)` tensor and never written; and
the pass never reads the target window (inputs agreeing on the source window
produce identical results — no autoregressive rollout, no teacher
forcing). -/
theorem C4_single_shot_source_decode (m : EncoderDecoder) (Ωe Ωd : RandStream)
    (X : Tensor3) :
    (m.forward Ωe Ωd X).2 =
      ((m.decoder.init_hidden
          (m.encoder.forward Ωe (X.map (List.take m.input_len))).2.1
          (m.encoder.forward Ωe (X.map (List.take m.input_len))).2.2).forward Ωd
        (X.map (List.take m.input_len))).2 ∧
    (m.forward Ωe Ωd X).1.outputs =
      some (zeros3 X.length m.target_len m.encoder.n_features) ∧
    (m.forward Ωe Ωd X).1.encoder =
      (m.encoder.forward Ωe (X.map (List.take m.input_len))).1 ∧
    (∀ X' : Tensor3, X.length = X'.length →
      X.map (List.take m.input_len) = X'.map (List.take m.input_len) →
      m.forward Ωe Ωd X = m.forward Ωe Ωd X') := by
  refine ⟨rfl, rfl, rfl, ?_⟩
  intro X' hlen hsrc
  simp only [EncoderDecoder.forward]
  rw [hsrc, hlen]

/-- Closed instance of C4: two inputs sharing the source window but differing
in the target window produce identical forward results on a concrete model,
whose output buffer stays all-zero. -/
theorem C4_single_shot_source_decode_witness :
    exModelG.forward exΩ exΩ [[[1], [2]]] = exModelG.forward exΩ exΩ [[[1], [3]]] ∧
    (exModelG.forward exΩ exΩ [[[1], [2]]]).1.outputs = some (zeros3 1 1 1) :=
  ⟨(C4_single_shot_source_decode exModelG exΩ exΩ [[[1], [2]]]).2.2.2 [[[1], [3]]]
      rfl rfl,
   (C4_single_shot_source_decode exModelG exΩ exΩ [[[1], [2]]]).2.1⟩

/-! ### C1: shape lemmas for the primitive operations -/

theorem zeros3_shape (a b c : Nat) : HasShape3 (zeros3 a b c) a b c := by
  refine ⟨by simp [zeros3], ?_⟩
  intro m hm
  rw [List.eq_of_mem_replicate hm]
  refine ⟨by simp, ?_⟩
  intro v hv
  rw [List.eq_of_mem_replicate hv]
  simp [zerosVec]

theorem runG_out_length (c : RnnCell) : ∀ (xs : List Vec) (h : Vec),
    (runG c xs h).1.length = xs.length
  | [], _ => rfl
  | x :: xs, h => by
      rw [runG]
      simpa using runG_out_length c xs (c.stepG x h)

theorem runG_out_mem (c : RnnCell) (wf : ∀ x h, (c.stepG x h).length = c.hiddenDim) :
    ∀ (xs : List Vec) (h : Vec) (v : Vec), v ∈ (runG c xs h).1 →
      v.length = c.hiddenDim
  | [], _, v, hv => by simp [runG] at hv
  | x :: xs, h, v, hv => by
      rw [runG] at hv
      rcases List.mem_cons.mp hv with h1 | h1
      · rw [h1]; exact wf x h
      · exact runG_out_mem c wf xs (c.stepG x h) v h1

theorem runG_final_length (c : RnnCell) (wf : ∀ x h, (c.stepG x h).length = c.hiddenDim) :
    ∀ (xs : List Vec) (h : Vec), xs ≠ [] → (runG c xs h).2.length = c.hiddenDim
  | [], _, hne => absurd rfl hne
  | x :: xs, h, _ => by
      rw [runG]
      by_cases hxs : xs = []
      · subst hxs
        simpa [runG] using wf x h
      · simpa using runG_final_length c wf xs (c.stepG x h) hxs

theorem runL_out_length (c : RnnCell) : ∀ (xs : List Vec) (h cc : Vec),
    (runL c xs h cc).1.length = xs.length
  | [], _, _ => rfl
  | x :: xs, h, cc => by
      rw [runL]
      simpa using runL_out_length c xs (c.stepL x h cc).1 (c.stepL x h cc).2

theorem runL_out_mem (c : RnnCell)
    (wf : ∀ x h cc, (c.stepL x h cc).1.length = c.hiddenDim) :
    ∀ (xs : List Vec) (h cc : Vec) (v : Vec), v ∈ (runL c xs h cc).1 →
      v.length = c.hiddenDim
  | [], _, _, v, hv => by simp [runL] at hv
  | x :: xs, h, cc, v, hv => by
      rw [runL] at hv
      rcases List.mem_cons.mp hv with h1 | h1
      · rw [h1]; exact wf x h cc
      · exact runL_out_mem c wf xs _ _ v h1

theorem runL_final_length (c : RnnCell)
    (wf1 : ∀ x h cc, (c.stepL x h cc).1.length = c.hiddenDim)
    (wf2 : ∀ x h cc, (c.stepL x h cc).2.length = c.hiddenDim) :
    ∀ (xs : List Vec) (h cc : Vec), xs ≠ [] →
      (runL c xs h cc).2.1.length = c.hiddenDim ∧
      (runL c xs h cc).2.2.length = c.hiddenDim
  | [], _, _, hne => absurd rfl hne
  | x :: xs, h, cc, _ => by
      rw [runL]
      by_cases hxs : xs = []
      · subst hxs
        simpa [runL] using ⟨wf1 x h cc, wf2 x h cc⟩
      · simpa using runL_final_length c wf1 wf2 xs _ _ hxs

theorem gruForward_shape (c : RnnCell) (X : Tensor3) (h0 : Option Tensor3)
    (N L F : Nat) (wf : CellWF c) (hX : HasShape3 X N L F) (hL : 0 < L) :
    HasShape3 (gruForward c X h0).1 N L c.hiddenDim ∧
    HasShape3 (gruForward c X h0).2 1 N c.hiddenDim := by
  constructor
  · refine ⟨by simp [gruForward, hX.1], ?_⟩
    intro m hm
    simp only [gruForward, List.map_map, List.mem_map, List.mem_range] at hm
    obtain ⟨n, hn, rfl⟩ := hm
    have hrow := hX.2 _ (getD_mem X n [] hn)
    refine ⟨?_, ?_⟩
    · simp only [Function.comp_apply]
      rw [runG_out_length, hrow.1]
    · intro v hv
      simp only [Function.comp_apply] at hv
      exact runG_out_mem c wf.1 _ _ v hv
  · refine ⟨rfl, ?_⟩
    intro m hm
    simp only [gruForward, List.map_map] at hm
    rcases List.mem_singleton.mp hm with rfl
    refine ⟨by simp [hX.1], ?_⟩
    intro v hv
    simp only [List.mem_map, List.mem_range, Function.comp] at hv
    obtain ⟨n, hn, rfl⟩ := hv
    have hrow := hX.2 _ (getD_mem X n [] hn)
    refine runG_final_length c wf.1 _ _ ?_
    intro hnil
    rw [hnil] at hrow
    simp at hrow
    omega

theorem lstmForward_shape (c : RnnCell) (X : Tensor3) (hc0 : Option (Tensor3 × Tensor3))
    (N L F : Nat) (wf : CellWF c) (hX : HasShape3 X N L F) (hL : 0 < L) :
    HasShape3 (lstmForward c X hc0).1 N L c.hiddenDim ∧
    HasShape3 (lstmForward c X hc0).2.1 1 N c.hiddenDim ∧
    HasShape3 (lstmForward c X hc0).2.2 1 N c.hiddenDim := by
  have wf1 : ∀ x h cc, (c.stepL x h cc).1.length = c.hiddenDim := fun x h cc =>
    (wf.2 x h cc).1
  have wf2 : ∀ x h cc, (c.stepL x h cc).2.length = c.hiddenDim := fun x h cc =>
    (wf.2 x h cc).2
  refine ⟨⟨by simp [lstmForward, hX.1], ?_⟩, ⟨rfl, ?_⟩, ⟨rfl, ?_⟩⟩
  · intro m hm
    simp only [lstmForward, List.map_map, List.mem_map, List.mem_range] at hm
    obtain ⟨n, hn, rfl⟩ := hm
    have hrow := hX.2 _ (getD_mem X n [] hn)
    refine ⟨by simp only [Function.comp_apply]; rw [runL_out_length, hrow.1], ?_⟩
    intro v hv
    simp only [Function.comp_apply] at hv
    exact runL_out_mem c wf1 _ _ _ v hv
  · intro m hm
    simp only [lstmForward, List.map_map] at hm
    rcases List.mem_singleton.mp hm with rfl
    refine ⟨by simp [hX.1], ?_⟩
    intro v hv
    simp only [List.mem_map, List.mem_range, Function.comp] at hv
    obtain ⟨n, hn, rfl⟩ := hv
    have hrow := hX.2 _ (getD_mem X n [] hn)
    refine (runL_final_length c wf1 wf2 _ _ _ ?_).1
    intro hnil
    rw [hnil] at hrow
    simp at hrow
    omega
  · intro m hm
    simp only [lstmForward, List.map_map] at hm
    rcases List.mem_singleton.mp hm with rfl
    refine ⟨by simp [hX.1], ?_⟩
    intro v hv
    simp only [List.mem_map, List.mem_range, Function.comp] at hv
    obtain ⟨n, hn, rfl⟩ := hv
    have hrow := hX.2 _ (getD_mem X n [] hn)
    refine (runL_final_length c wf1 wf2 _ _ _ ?_).2
    intro hnil
    rw [hnil] at hrow
    simp at hrow
    omega

theorem dropoutT_shape (p : ℚ) (mk : Mask) (t : Tensor3) (a b c : Nat)
    (h : HasShape3 t a b c) : HasShape3 (dropoutT p mk t) a b c := by
  refine ⟨by simp [dropoutT, h.1], ?_⟩
  intro m hm
  simp only [dropoutT, List.mem_map, List.mem_range] at hm
  obtain ⟨i, hi, rfl⟩ := hm
  have hrow := h.2 _ (getD_mem t i [] hi)
  constructor
  · rw [List.length_map, List.length_range, hrow.1]
  · intro v hv
    simp only [List.mem_map, List.mem_range] at hv
    obtain ⟨j, hj, rfl⟩ := hv
    have hvm := hrow.2 _ (getD_mem (t.getD i []) j [] hj)
    rw [List.length_map, List.length_range, hvm]

theorem applyLinear_shape (l : LinearLayer) (t : Tensor3) (a b d outF : Nat)
    (hw : l.weight.length = outF) (hb : l.bias.length = outF)
    (h : HasShape3 t a b d) : HasShape3 (applyLinear l t) a b outF := by
  refine ⟨by simp [applyLinear, h.1], ?_⟩
  intro m hm
  simp only [applyLinear, List.mem_map] at hm
  obtain ⟨m₀, hm₀, rfl⟩ := hm
  have hrow := h.2 _ hm₀
  refine ⟨by simp [hrow.1], ?_⟩
  intro v hv
  simp only [List.mem_map] at hv
  obtain ⟨v₀, _, rfl⟩ := hv
  simp [applyLinVec, hw, hb]

theorem cat3_shape (s t : Tensor3) (a b c c' : Nat) (hs : HasShape3 s a b c)
    (ht : HasShape3 t a b c') : HasShape3 (cat3 s t) a b (c + c') := by
  refine ⟨by simp [cat3, hs.1, ht.1], ?_⟩
  intro m hm
  simp only [cat3, List.mem_map] at hm
  obtain ⟨⟨m₁, m₂⟩, hmem, rfl⟩ := hm
  have h1 : m₁ ∈ s := (List.of_mem_zip hmem).1
  have h2 : m₂ ∈ t := (List.of_mem_zip hmem).2
  obtain ⟨hb1, hc1⟩ := hs.2 _ h1
  obtain ⟨hb2, hc2⟩ := ht.2 _ h2
  refine ⟨by simp [hb1, hb2], ?_⟩
  intro v hv
  simp only [List.mem_map] at hv
  obtain ⟨⟨v₁, v₂⟩, hvmem, rfl⟩ := hv
  have hv1 : v₁ ∈ m₁ := (List.of_mem_zip hvmem).1
  have hv2 : v₂ ∈ m₂ := (List.of_mem_zip hvmem).2
  simp [hc1 _ hv1, hc2 _ hv2]

/-- Shape contract of an optional normalization module as applied by the
model (`none` is the identity). -/
def OptNormWF (n : Option NormLayer) : Prop :=
  ∀ t a b c, HasShape3 t a b c → HasShape3 (applyNormOpt n t) a b c

theorem optNormWF_none : OptNormWF none := fun _ _ _ _ h => h

theorem optNormWF_some (l : NormLayer) (h : NormFunWF l.f) : OptNormWF (some l) :=
  fun t a b c ht => h t a b c ht

/-- The invariant carried by the layer pipeline of `Encoder.forward` /
`Decoder.forward`: output `(N, L, H)`, hidden state present with shape
`(1, N, H)`, cell state absent or of shape `(1, N, H)`. -/
def StInv (N L H : Nat) (st : Tensor3 × RecState) : Prop :=
  HasShape3 st.1 N L H ∧
  (∃ h, st.2.hidden = some h ∧ HasShape3 h 1 N H) ∧
  (st.2.cell = none ∨ ∃ c, st.2.cell = some c ∧ HasShape3 c 1 N H)

theorem applyNormCore_inv (outN hidN celN : Option NormLayer)
    (wfo : OptNormWF outN) (wfh : OptNormWF hidN) (N L H : Nat)
    (hN : 0 < N) (hL : 0 < L) (hH : 0 < H) (t : Tensor3) (st : RecState)
    (h : StInv N L H (t, st)) :
    StInv N L H (applyNormalizationCore outN hidN celN t st) := by
  have hout : HasShape3 t N L H := h.1
  obtain ⟨hid, hhid0, hhs⟩ := h.2.1
  have hhid : st.hidden = some hid := hhid0
  have hcell : st.cell = none ∨ ∃ c, st.cell = some c ∧ HasShape3 c 1 N H := h.2.2
  unfold applyNormalizationCore
  cases hbatch : isBatch outN
  · simp only [Bool.false_eq_true, if_false]
    refine ⟨wfo _ _ _ _ hout, ?_, ?_⟩
    · exact ⟨_, by rw [hhid]; rfl, wfh _ _ _ _ hhs⟩
    · rcases hcell with hnone | ⟨cv, hcv, hcs⟩
      · left
        rw [hnone]
        by_cases hcn : celN.isSome = true <;> simp [hcn]
      · right
        rw [hcv]
        by_cases hcn : celN.isSome = true
        · exact ⟨_, by simp [hcn], wfo _ _ _ _ hcs⟩
        · exact ⟨_, by simp [hcn], hcs⟩
  · simp only [if_true]
    refine ⟨?_, ?_, ?_⟩
    · have h1 := permute021_shape t N L H hout hN hL
      have h2 := wfo _ N H L h1
      exact permute021_shape _ N H L h2 hN hH
    · have h1 := permute120_shape hid 1 N H hhs (by omega) hN
      have h2 := wfh _ N H 1 h1
      exact ⟨_, by rw [hhid]; rfl, permute201_shape _ N H 1 h2 hN hH⟩
    · rcases hcell with hnone | ⟨cv, hcv, hcs⟩
      · left
        rw [hnone]
        by_cases hcn : celN.isSome = true <;> simp [hcn]
      · right
        rw [hcv]
        have h1 := permute120_shape cv 1 N H hcs (by omega) hN
        by_cases hcn : celN.isSome = true
        · have h2 := wfo _ N H 1 h1
          exact ⟨_, by simp [hcn], permute201_shape _ N H 1 h2 hN hH⟩
        · exact ⟨_, by simp [hcn], permute201_shape _ N H 1 h1 hN hH⟩

theorem applyDropoutCore_inv (p : ℚ) (Ωi : Nat → Mask) (N L H : Nat)
    (t : Tensor3) (st : RecState) (h : StInv N L H (t, st)) :
    StInv N L H (applyDropoutCore p Ωi t st) := by
  have hout : HasShape3 t N L H := h.1
  obtain ⟨hid, hhid0, hhs⟩ := h.2.1
  have hhid : st.hidden = some hid := hhid0
  have hcell : st.cell = none ∨ ∃ c, st.cell = some c ∧ HasShape3 c 1 N H := h.2.2
  refine ⟨dropoutT_shape _ _ _ _ _ _ hout, ?_, ?_⟩
  · exact ⟨_, by rw [applyDropoutCore, hhid]; rfl, dropoutT_shape _ _ _ _ _ _ hhs⟩
  · rcases hcell with hnone | ⟨cv, hcv, hcs⟩
    · left
      rw [applyDropoutCore, hnone]
      rfl
    · right
      rw [applyDropoutCore, hcv]
      exact ⟨_, rfl, dropoutT_shape _ _ _ _ _ _ hcs⟩

theorem postProcess_inv (outN hidN celN : Option NormLayer) (dropouts : List ℚ)
    (tr : Bool) (Ω : RandStream) (i : Nat) (wfo : OptNormWF outN)
    (wfh : OptNormWF hidN) (N L H : Nat) (hN : 0 < N) (hL : 0 < L) (hH : 0 < H)
    (st : Tensor3 × RecState) (h : StInv N L H st) :
    StInv N L H (postProcess outN hidN celN dropouts tr Ω i st) := by
  unfold postProcess
  by_cases hn : outN.isSome = true <;> by_cases hd : (!dropouts.isEmpty && tr) = true <;>
    simp only [hn, hd, if_true, if_false, Bool.false_eq_true]
  · exact applyDropoutCore_inv _ _ N L H _ _
      (applyNormCore_inv outN hidN celN wfo wfh N L H hN hL hH st.1 st.2 h)
  · exact applyNormCore_inv outN hidN celN wfo wfh N L H hN hL hH st.1 st.2 h
  · exact applyDropoutCore_inv _ _ N L H _ _ h
  · exact h

theorem runLayer_inv (outN hidN celN : Option NormLayer) (dropouts : List ℚ)
    (tr : Bool) (Ω : RandStream) (i : Nat) (c : RnnCell) (N L H : Nat)
    (wfc : CellWF c) (hdim : c.hiddenDim = H) (wfo : OptNormWF outN)
    (wfh : OptNormWF hidN) (hN : 0 < N) (hL : 0 < L) (hH : 0 < H)
    (st : Tensor3 × RecState) (h : StInv N L H st) :
    StInv N L H (runLayer outN hidN celN dropouts tr Ω i c st) := by
  unfold runLayer
  cases hty : c.ty
  · have hg := gruForward_shape c st.1 st.2.hidden N L H wfc h.1 hL
    refine postProcess_inv outN hidN celN dropouts tr Ω i wfo wfh N L H hN hL hH _
      ⟨hdim ▸ hg.1, ⟨_, rfl, hdim ▸ hg.2⟩, h.2.2⟩
  · have hg := lstmForward_shape c st.1
      (some (st.2.hidden.getD [], st.2.cell.getD [])) N L H wfc h.1 hL
    refine postProcess_inv outN hidN celN dropouts tr Ω i wfo wfh N L H hN hL hH _
      ⟨hdim ▸ hg.1, ⟨_, rfl, hdim ▸ hg.2.1⟩, Or.inr ⟨_, rfl, hdim ▸ hg.2.2⟩⟩

theorem runLayers_inv (outN hidN celN : Option NormLayer) (dropouts : List ℚ)
    (tr : Bool) (Ω : RandStream) (N L H : Nat) (wfo : OptNormWF outN)
    (wfh : OptNormWF hidN) (hN : 0 < N) (hL : 0 < L) (hH : 0 < H) :
    ∀ (cs : List RnnCell) (i : Nat) (st : Tensor3 × RecState),
      (∀ c ∈ cs, CellWF c ∧ c.hiddenDim = H) → StInv N L H st →
      StInv N L H (runLayers outN hidN celN dropouts tr Ω i cs st)
  | [], _, _, _, h => h
  | c :: cs, i, st, hall, h => by
      rw [runLayers]
      exact runLayers_inv outN hidN celN dropouts tr Ω N L H wfo wfh hN hL hH cs
        (i + 1) _ (fun c' hc' => hall c' (List.mem_cons_of_mem _ hc'))
        (runLayer_inv outN hidN celN dropouts tr Ω i c N L H
          (hall c (List.mem_cons_self _ _)).1 (hall c (List.mem_cons_self _ _)).2
          wfo wfh hN hL hH st h)

/-- Shape contract of `Encoder.forward`: a rectangular `(N, L, F)` input
yields a `(N, L, H)` hidden sequence and a cell state that is `None` or of
shape `(1, N, H)`. -/
theorem enc_forward_shape (e : Encoder) (Ω : RandStream) (X : Tensor3)
    (N L F H : Nat) (wfb : CellWF e.basic_rnn) (hdim : e.basic_rnn.hiddenDim = H)
    (hall : ∀ c ∈ e.rnns, CellWF c ∧ c.hiddenDim = H)
    (wfo : OptNormWF e.out_normalization) (wfh : OptNormWF e.hidden_normalization)
    (hcs : e.cell_state = none) (hX : HasShape3 X N L F)
    (hN : 0 < N) (hL : 0 < L) (hH : 0 < H) :
    HasShape3 (e.forward Ω X).2.1 N L H ∧
    ((e.forward Ω X).2.2 = none ∨
      ∃ c, (e.forward Ω X).2.2 = some c ∧ HasShape3 c 1 N H) := by
  unfold Encoder.forward
  cases hty : e.basic_rnn.ty
  · have hg := gruForward_shape e.basic_rnn X none N L F wfb hX hL
    have h0 : StInv N L H ((gruForward e.basic_rnn X none).1,
        (⟨some (gruForward e.basic_rnn X none).2, e.cell_state⟩ : RecState)) :=
      ⟨hdim ▸ hg.1, ⟨_, rfl, hdim ▸ hg.2⟩, Or.inl hcs⟩
    have h2 := runLayers_inv e.out_normalization e.hidden_normalization
      e.cell_normalization e.dropouts e.training Ω N L H wfo wfh hN hL hH e.rnns 1 _
      (fun c hc => hall c hc)
      (postProcess_inv e.out_normalization e.hidden_normalization
        e.cell_normalization e.dropouts e.training Ω 0 wfo wfh N L H hN hL hH _ h0)
    exact ⟨h2.1, h2.2.2⟩
  · have hg := lstmForward_shape e.basic_rnn X none N L F wfb hX hL
    have h0 : StInv N L H ((lstmForward e.basic_rnn X none).1,
        (⟨some (lstmForward e.basic_rnn X none).2.1,
          some (lstmForward e.basic_rnn X none).2.2⟩ : RecState)) :=
      ⟨hdim ▸ hg.1, ⟨_, rfl, hdim ▸ hg.2.1⟩, Or.inr ⟨_, rfl, hdim ▸ hg.2.2⟩⟩
    have h2 := runLayers_inv e.out_normalization e.hidden_normalization
      e.cell_normalization e.dropouts e.training Ω N L H wfo wfh hN hL hH e.rnns 1 _
      (fun c hc => hall c hc)
      (postProcess_inv e.out_normalization e.hidden_normalization
        e.cell_normalization e.dropouts e.training Ω 0 wfo wfh N L H hN hL hH _ h0)
    exact ⟨h2.1, h2.2.2⟩

/-- Shape contract of `Decoder.forward`: with seeded `(1, N, H)` state,
well-formed modules and a regression layer with `FD` output rows, a
rectangular `(N, L, F)` input yields a `(N, L, FD)` output. -/
theorem dec_forward_shape (d : Decoder) (Ω : RandStream) (X : Tensor3)
    (N L F H FD : Nat) (wfb : CellWF d.basic_rnn)
    (hdim : d.basic_rnn.hiddenDim = H)
    (hall : ∀ c ∈ d.rnns, CellWF c ∧ c.hiddenDim = H)
    (wfo : OptNormWF d.out_normalization) (wfh : OptNormWF d.hidden_normalization)
    (hhid : ∃ hv, d.hidden = some hv ∧ HasShape3 hv 1 N H)
    (hcell : d.cell_state = none ∨ ∃ cv, d.cell_state = some cv ∧ HasShape3 cv 1 N H)
    (hX : HasShape3 X N L F)
    (hreg : d.regression.weight.length = FD) (hregb : d.regression.bias.length = FD)
    (hattn : d.attn = none ∨
      ∃ a ks vs S, d.attn = some a ∧ AttnWF a ∧ d.attn_keys = some ks ∧
        d.attn_values = some vs ∧ HasShape3 ks N S H ∧ HasShape3 vs N S H)
    (hN : 0 < N) (hL : 0 < L) (hH : 0 < H) :
    HasShape3 (d.forward Ω X).2 N L FD := by
  unfold Decoder.forward
  have hmain : ∀ st0 : Tensor3 × RecState, StInv N L H st0 →
      StInv N L H (runLayers d.out_normalization d.hidden_normalization
        d.cell_normalization d.dropouts d.training Ω 1 d.rnns
        (postProcess d.out_normalization d.hidden_normalization
          d.cell_normalization d.dropouts d.training Ω 0 st0)) := by
    intro st0 h0
    exact runLayers_inv d.out_normalization d.hidden_normalization
      d.cell_normalization d.dropouts d.training Ω N L H wfo wfh hN hL hH d.rnns 1 _
      hall (postProcess_inv d.out_normalization d.hidden_normalization
        d.cell_normalization d.dropouts d.training Ω 0 wfo wfh N L H hN hL hH _ h0)
  have hfinal : ∀ st2 : Tensor3 × RecState, StInv N L H st2 →
      HasShape3 (applyLinear d.regression
        (match d.attn with
          | some a => cat3 (a.f st2.1 (d.attn_keys.getD []) (d.attn_values.getD []))
              st2.1
          | none => st2.1)) N L FD := by
    intro st2 h2
    rcases hattn with hnone | ⟨a, ks, vs, S, ha, hwa, hks, hvs, hkss, hvss⟩
    · rw [hnone]
      exact applyLinear_shape _ _ N L H FD hreg hregb h2.1
    · rw [ha, hks, hvs]
      have hcat := cat3_shape _ st2.1 N L H H
        (hwa st2.1 ks vs N L S H h2.1 hkss hvss) h2.1
      exact applyLinear_shape _ _ N L (H + H) FD hreg hregb hcat
  obtain ⟨hv, hhv, hvs3⟩ := hhid
  cases hty : d.basic_rnn.ty
  · have hg := gruForward_shape d.basic_rnn X d.hidden N L F wfb hX hL
    exact hfinal _ (hmain _ ⟨hdim ▸ hg.1, ⟨_, rfl, hdim ▸ hg.2⟩, hcell⟩)
  · have hg := lstmForward_shape d.basic_rnn X
      (some (d.hidden.getD [], d.cell_state.getD [])) N L F wfb hX hL
    exact hfinal _ (hmain _ ⟨hdim ▸ hg.1, ⟨_, rfl, hdim ▸ hg.2.1⟩,
      Or.inr ⟨_, rfl, hdim ▸ hg.2.2⟩⟩)

/-- `init_hidden` leaves the decoder with `(1, N, H)` hidden and cell
states. -/
theorem init_hidden_shapes (d : Decoder) (hsq : Tensor3) (cso : Option Tensor3)
    (N L H : Nat) (hhs : HasShape3 hsq N L H) (hN : 0 < N) (hL : 0 < L)
    (hcso : cso = none ∨ ∃ cv, cso = some cv ∧ HasShape3 cv 1 N H) :
    (∃ hv, (d.init_hidden hsq cso).hidden = some hv ∧ HasShape3 hv 1 N H) ∧
    (∃ cv, (d.init_hidden hsq cso).cell_state = some cv ∧ HasShape3 cv 1 N H) := by
  have hmap := lastSlice_map_shape hsq N L H hhs hL
  have hhid := permute102_shape _ N 1 H hmap hN (by omega)
  refine ⟨⟨_, rfl, hhid⟩, ?_⟩
  rcases hcso with rfl | ⟨cv, rfl, hcv⟩
  · refine ⟨zeros3 1 N H, ?_, zeros3_shape 1 N H⟩
    have hsh := shapeOf3_eq _ 1 N H hhid (by omega) hN
    show some (zeros3 (shapeOf3 (permute102 (hsq.map lastSlice))).1
      (shapeOf3 (permute102 (hsq.map lastSlice))).2.1
      (shapeOf3 (permute102 (hsq.map lastSlice))).2.2) = some (zeros3 1 N H)
    rw [hsh]
  · exact ⟨cv, rfl, hcv⟩

/-- When attention is configured, `init_hidden` stores the key/value
projections of the encoder hidden sequence. -/
theorem init_hidden_attn_kv (d : Decoder) (hsq : Tensor3) (cso : Option Tensor3)
    (a : AttnLayer) (lk lv : LinearLayer) (ha : d.attn = some a)
    (hlk : d.linear_keys = some lk) (hlv : d.linear_values = some lv) :
    (d.init_hidden hsq cso).attn_keys = some (applyLinear lk hsq) ∧
    (d.init_hidden hsq cso).attn_values = some (applyLinear lv hsq) := by
  constructor <;> simp [Decoder.init_hidden, ha, hlk, hlv, applyLinOpt]

theorem map_take_shape (X : Tensor3) (B twoL F L : Nat) (hX : HasShape3 X B twoL F)
    (hle : L ≤ twoL) : HasShape3 (X.map (List.take L)) B L F := by
  refine ⟨by simp [hX.1], ?_⟩
  intro m hm
  obtain ⟨m₀, hm₀, rfl⟩ := List.mem_map.mp hm
  obtain ⟨hb, hc⟩ := hX.2 _ hm₀
  refine ⟨by rw [List.length_take, hb]; omega, ?_⟩
  intro v hv
  exact hc v (List.mem_of_mem_take hv)

theorem mkEncoder_norm_wf (nf hd : Nat) (ps : ParamSupply) (layers : Nat) (p : ℚ)
    (norm : Option NormKind) (hwf : SupplyWF ps) :
    OptNormWF (mkEncoder nf hd ps layers p norm).out_normalization ∧
    OptNormWF (mkEncoder nf hd ps layers p norm).hidden_normalization := by
  cases norm
  · exact ⟨optNormWF_none, optNormWF_none⟩
  · exact ⟨optNormWF_some _ (hwf.2.1 0), optNormWF_some _ (hwf.2.1 1)⟩

theorem mkDecoder_norm_wf (nf hd : Nat) (ps : ParamSupply) (layers : Nat) (p : ℚ)
    (norm : Option NormKind) (heads : Nat) (hwf : SupplyWF ps) :
    OptNormWF (mkDecoder nf hd ps layers p norm heads).out_normalization ∧
    OptNormWF (mkDecoder nf hd ps layers p norm heads).hidden_normalization := by
  cases norm
  · exact ⟨optNormWF_none, optNormWF_none⟩
  · exact ⟨optNormWF_some _ (hwf.2.1 0), optNormWF_some _ (hwf.2.1 1)⟩

theorem mkEncoder_rnns_wf (nf hd : Nat) (ps : ParamSupply) (layers : Nat) (p : ℚ)
    (norm : Option NormKind) (hwf : SupplyWF ps) :
    ∀ c ∈ (mkEncoder nf hd ps layers p norm).rnns, CellWF c ∧ c.hiddenDim = hd := by
  intro c hc
  simp only [mkEncoder] at hc
  by_cases h1 : 1 < layers
  · simp only [h1, if_true, List.mem_map, List.mem_range] at hc
    obtain ⟨i, _, rfl⟩ := hc
    exact ⟨(hwf.1 _ _ _).1, (hwf.1 _ _ _).2⟩
  · simp [h1] at hc

theorem mkDecoder_rnns_wf (nf hd : Nat) (ps : ParamSupply) (layers : Nat) (p : ℚ)
    (norm : Option NormKind) (heads : Nat) (hwf : SupplyWF ps) :
    ∀ c ∈ (mkDecoder nf hd ps layers p norm heads).rnns,
      CellWF c ∧ c.hiddenDim = hd := by
  intro c hc
  simp only [mkDecoder] at hc
  by_cases h1 : 1 < layers
  · simp only [h1, if_true, List.mem_map, List.mem_range] at hc
    obtain ⟨i, _, rfl⟩ := hc
    exact ⟨(hwf.1 _ _ _).1, (hwf.1 _ _ _).2⟩
  · simp [h1] at hc

/-- C1.  For every configuration accepted by `create_encoder_decoder_model`
(well-formed framework modules, `input_len = target_len = seq_len = L > 0`,
`hidden_dim > 0`) and every input of shape `(B, 2L, n_features)` with
`B > 0`, the model's `forward` returns a tensor of shape
`(B, L, n_features)`. -/
theorem C1_forward_output_shape (nf hd layers L heads B : Nat) (tf p : ℚ)
    (norm : Option NormKind) (psE psD : ParamSupply) (m : EncoderDecoder)
    (Ωe Ωd : RandStream) (X : Tensor3)
    (hok : create_encoder_decoder_model nf hd psE psD layers L tf p norm heads =
      Except.ok m)
    (hwE : SupplyWF psE) (hwD : SupplyWF psD)
    (hX : HasShape3 X B (2 * L) nf) (hB : 0 < B) (hL : 0 < L) (hH : 0 < hd) :
    HasShape3 (m.forward Ωe Ωd X).2 B L nf := by
  unfold create_encoder_decoder_model at hok
  by_cases hcond : 0 < heads ∧ ¬hd % heads = 0
  · rw [if_pos hcond] at hok
    cases hok
  rw [if_neg hcond] at hok
  injection hok with hok
  subst hok
  have hsrc : HasShape3 (X.map (List.take L)) B L nf :=
    map_take_shape X B (2 * L) nf L hX (by omega)
  have hnormE := mkEncoder_norm_wf nf hd psE layers p norm hwE
  have henc := enc_forward_shape (mkEncoder nf hd psE layers p norm) Ωe
    (X.map (List.take L)) B L nf hd (hwE.1 0 nf hd).1 (hwE.1 0 nf hd).2
    (mkEncoder_rnns_wf nf hd psE layers p norm hwE) hnormE.1 hnormE.2 rfl hsrc
    hB hL hH
  have hinit := init_hidden_shapes (mkDecoder nf hd psD layers p norm heads)
    ((mkEncoder nf hd psE layers p norm).forward Ωe (X.map (List.take L))).2.1
    ((mkEncoder nf hd psE layers p norm).forward Ωe (X.map (List.take L))).2.2
    B L hd henc.1 hB hL henc.2
  have hnormD := mkDecoder_norm_wf nf hd psD layers p norm heads hwD
  have hattn : (mkDecoder nf hd psD layers p norm heads).attn = none ∨
      ∃ a ks vs S,
        ((mkDecoder nf hd psD layers p norm heads).init_hidden
          ((mkEncoder nf hd psE layers p norm).forward Ωe
            (X.map (List.take L))).2.1
          ((mkEncoder nf hd psE layers p norm).forward Ωe
            (X.map (List.take L))).2.2).attn = some a ∧ AttnWF a ∧
        ((mkDecoder nf hd psD layers p norm heads).init_hidden
          ((mkEncoder nf hd psE layers p norm).forward Ωe
            (X.map (List.take L))).2.1
          ((mkEncoder nf hd psE layers p norm).forward Ωe
            (X.map (List.take L))).2.2).attn_keys = some ks ∧
        ((mkDecoder nf hd psD layers p norm heads).init_hidden
          ((mkEncoder nf hd psE layers p norm).forward Ωe
            (X.map (List.take L))).2.1
          ((mkEncoder nf hd psE layers p norm).forward Ωe
            (X.map (List.take L))).2.2).attn_values = some vs ∧
        HasShape3 ks B S hd ∧ HasShape3 vs B S hd := by
    by_cases hpos : 0 < heads
    · right
      have ha : (mkDecoder nf hd psD layers p norm heads).attn =
          some (psD.attnFab hd heads) := by
        simp [mkDecoder, hpos]
      have hlk : (mkDecoder nf hd psD layers p norm heads).linear_keys =
          some (psD.linFab 0 hd hd) := by
        simp [mkDecoder, hpos]
      have hlv : (mkDecoder nf hd psD layers p norm heads).linear_values =
          some (psD.linFab 1 hd hd) := by
        simp [mkDecoder, hpos]
      have hkv := init_hidden_attn_kv (mkDecoder nf hd psD layers p norm heads)
        ((mkEncoder nf hd psE layers p norm).forward Ωe (X.map (List.take L))).2.1
        ((mkEncoder nf hd psE layers p norm).forward Ωe (X.map (List.take L))).2.2
        (psD.attnFab hd heads) (psD.linFab 0 hd hd) (psD.linFab 1 hd hd) ha hlk hlv
      refine ⟨psD.attnFab hd heads, _, _, L, ha, hwD.2.2.2 hd heads, hkv.1, hkv.2,
        applyLinear_shape _ _ B L hd hd (hwD.2.2.1 0 hd hd).1 (hwD.2.2.1 0 hd hd).2.2
          henc.1,
        applyLinear_shape _ _ B L hd hd (hwD.2.2.1 1 hd hd).1 (hwD.2.2.1 1 hd hd).2.2
          henc.1⟩
    · left
      simp [mkDecoder, hpos]
  exact dec_forward_shape _ Ωd (X.map (List.take L)) B L nf hd nf
    (hwD.1 0 nf hd).1 (hwD.1 0 nf hd).2
    (mkDecoder_rnns_wf nf hd psD layers p norm heads hwD)
    hnormD.1 hnormD.2 hinit.1 (Or.inr hinit.2) hsrc
    (hwD.2.2.1 2 _ nf).1 (hwD.2.2.1 2 _ nf).2.2 hattn hB hL hH

/-- A concrete 2-layer LSTM model with layer normalization and one narrow
attention head. -/
def exModelA : EncoderDecoder :=
  { encoder := mkEncoder 1 1 exSupplyL 2 0 (some NormKind.Layer),
    decoder := mkDecoder 1 1 exSupplyL 2 0 (some NormKind.Layer) 1,
    input_len := 1, target_len := 1, teacher_forcing_prob := 0, outputs := none }

/-- Closed instance of C1 on two concrete configurations: a plain GRU model
and an attention-enabled normalized stacked LSTM model. -/
theorem C1_forward_output_shape_witness :
    HasShape3 (exModelG.forward exΩ exΩ [[[1], [2]]]).2 1 1 1 ∧
    HasShape3 (exModelA.forward exΩ exΩ [[[1], [2]]]).2 1 1 1 :=
  ⟨C1_forward_output_shape 1 1 1 1 0 1 0 0 none exSupplyG exSupplyG exModelG exΩ exΩ
      [[[1], [2]]] rfl exSupplyG_wf exSupplyG_wf (by decide) (by decide) (by decide)
      (by decide),
   C1_forward_output_shape 1 1 2 1 1 1 0 0 (some NormKind.Layer) exSupplyL exSupplyL
      exModelA exΩ exΩ [[[1], [2]]] rfl exSupplyL_wf exSupplyL_wf (by decide)
      (by decide) (by decide) (by decide)⟩

end EncDec
